import Mathlib

/-!
Verification of the team/game request-approval workflow of the
project-grace scheduling application.

The document store holds five collections (`users`, `teams`, `requests`,
`gameRequests`, `games`), each a list of (document id, document) pairs.
Screen handlers are embedded as pure transition functions on this store,
translated from the TypeScript source; Firestore semantics are modelled
as follows: `updateDoc` fails when the target document is absent,
`deleteDoc` is a no-op when the target is absent, `setDoc` with merge
upserts, and a collection query is a filter over the collection.
A JavaScript `null` / missing string field is `Option.none`; the empty
string `''` is `some ""` (distinct from `null`, but equally falsy).
-/

/-- Status enum shared by `requests` and `gameRequests` documents. -/
inductive ReqStatus where
  | pending
  | approved
  | rejected
deriving DecidableEq, Repr

/-- User document (`users` collection).  `role` is the legacy string role
field written by the older CreateTeamScreen variant. -/
structure UserDoc where
  name : String := ""
  email : String := ""
  teamId : Option String := none
  isCoordinator : Bool := false
  role : Option String := none
deriving DecidableEq, Repr

/-- Team document (`teams` collection); fields irrelevant to the claims
(colors, location, coordinates) are omitted. -/
structure TeamDoc where
  teamName : String
  createdBy : String := ""
deriving DecidableEq, Repr

/-- Coordinator-join request document (`requests` collection). -/
structure RequestDoc where
  userId : String
  userEmail : String := ""
  teamId : String
  teamName : String := ""
  status : ReqStatus
deriving DecidableEq, Repr

/-- Cross-team game request document (`gameRequests` collection). -/
structure GameRequestDoc where
  gameId : String := ""
  requestingTeamId : String := ""
  homeTeamId : String := ""
  status : ReqStatus
deriving DecidableEq, Repr

/-- Game document (`games` collection); only the team reference matters
for the cascade claims. -/
structure GameDoc where
  teamId : String
  title : String := ""
deriving DecidableEq, Repr

/-- A collection is an association list from document id to document. -/
abbrev Coll (α : Type) := List (String × α)

/-- Point read: first document with the given id, as Firestore `getDoc`. -/
def getDoc {α : Type} (l : Coll α) (i : String) : Option α :=
  match l.find? (fun p => p.1 == i) with
  | some p => some p.2
  | none => none

/-- Firestore `updateDoc`: applies the field changes `f` when the document
exists, and fails (returns `none`) when it is absent. -/
def updateDoc {α : Type} (l : Coll α) (i : String) (f : α → α) : Option (Coll α) :=
  if l.any (fun p => p.1 == i) then
    some (l.map (fun p => if p.1 == i then (p.1, f p.2) else p))
  else none

/-- Firestore `deleteDoc`: removes the document; absent targets are a no-op. -/
def deleteDoc {α : Type} (l : Coll α) (i : String) : Coll α :=
  l.filter (fun p => p.1 != i)

/-- Firestore `setDoc` with merge (`upsertUserDoc` helper): updates the
existing document or inserts a fresh one built by `mk`. -/
def setDocMerge {α : Type} (l : Coll α) (i : String) (f : α → α) (mk : α) : Coll α :=
  if l.any (fun p => p.1 == i) then
    l.map (fun p => if p.1 == i then (p.1, f p.2) else p)
  else l ++ [(i, mk)]

/-- The whole document store. -/
structure Store where
  users : Coll UserDoc := []
  teams : Coll TeamDoc := []
  requests : Coll RequestDoc := []
  gameRequests : Coll GameRequestDoc := []
  games : Coll GameDoc := []
deriving DecidableEq, Repr

/-- Client-visible refusal reasons; each constructor corresponds to one
early-return (toast/alert) branch in the screens. -/
inductive AppError where
  | notFound
  | alreadyInTeam
  | duplicateRequest
  | lastCoordinator
  | duplicateTeamName
  | missingInfo
  | notSignedIn
  | alreadyCoordinator
  | alreadyMember
deriving DecidableEq, Repr

/-- Result of a handler: success, or a refusal/error together with the
store at the moment of failure (screens do not roll back prior writes). -/
inductive OpResult where
  | ok (s : Store)
  | err (e : AppError) (s : Store)
deriving DecidableEq, Repr

/-- Store reached by an operation, successful or not. -/
def OpResult.state : OpResult → Store
  | .ok s => s
  | .err _ s => s

/-- JavaScript truthiness of a nullable string field: `null`/missing and
the empty string are falsy. -/
def truthyStr : Option String → Bool
  | none => false
  | some s => !(s == "")

namespace CoordinatorDashboard

/-- Embeds `handleApprove` of `src/app/(tabs)/CoordinatorDashboardScreen.tsx`
(lines 244-272): set the requester's user record to
`isCoordinator:true, teamId:request.teamId`; set the request's status to
`approved`; then query requests with the same `teamId` and status
`pending` and delete every one whose id differs from the approved
request.  The handler receives the request object `req` from the screen
list together with its id `rid`. -/
def handleApprove (s : Store) (rid : String) (req : RequestDoc) : OpResult :=
  match updateDoc s.users req.userId
      (fun u => { u with isCoordinator := true, teamId := some req.teamId }) with
  | none => .err .notFound s
  | some users1 =>
    let s1 : Store := { s with users := users1 }
    match updateDoc s1.requests rid (fun r => { r with status := .approved }) with
    | none => .err .notFound s1
    | some reqs1 =>
      let s2 : Store := { s1 with requests := reqs1 }
      .ok { s2 with
        requests := s2.requests.filter
          (fun p => !(p.1 != rid && p.2.teamId == req.teamId
            && p.2.status == ReqStatus.pending)) }

/-- Embeds `handleReject` of the same screen (lines 274-283): set the
request's status to `rejected`, with no check of the current status. -/
def handleReject (s : Store) (rid : String) : OpResult :=
  match updateDoc s.requests rid (fun r => { r with status := .rejected }) with
  | none => .err .notFound s
  | some reqs1 => .ok { s with requests := reqs1 }

end CoordinatorDashboard

namespace Dashboard004

/-- Embeds `handleApprove` of the REST-helper dashboard variant
(`src/unnamed/part_004`, lines 454-478).  Identical to the SDK variant
except that the sibling query filters on `teamId` only, so every other
request for the team is deleted regardless of its status. -/
def handleApprove (s : Store) (rid : String) (req : RequestDoc) : OpResult :=
  match updateDoc s.users req.userId
      (fun u => { u with isCoordinator := true, teamId := some req.teamId }) with
  | none => .err .notFound s
  | some users1 =>
    let s1 : Store := { s with users := users1 }
    match updateDoc s1.requests rid (fun r => { r with status := .approved }) with
    | none => .err .notFound s1
    | some reqs1 =>
      let s2 : Store := { s1 with requests := reqs1 }
      .ok { s2 with
        requests := s2.requests.filter
          (fun p => !(p.1 != rid && p.2.teamId == req.teamId)) }

/-- Embeds `handleRejectGameRequest` (`src/unnamed/part_004`, lines
389-405): set the game request's status to `rejected`; if the update
throws (document absent) fall back to deleting it.  There is no check of
the current status and no invalid-state error path. -/
def handleRejectGameRequest (s : Store) (rid : String) : Store :=
  match updateDoc s.gameRequests rid (fun r => { r with status := .rejected }) with
  | some grs => { s with gameRequests := grs }
  | none => { s with gameRequests := deleteDoc s.gameRequests rid }

/-- Embeds `handleApproveGameRequest` (`src/unnamed/part_004`, lines
347-386): create a game from the request's fields (team id taken from
the dashboard's team), then mark the request approved, falling back to
deleting it when the update fails. -/
def handleApproveGameRequest (s : Store) (rid : String)
    (dashTeamId : String) (title : String) (freshGameId : String) : Store :=
  let s1 : Store :=
    { s with games := s.games ++ [(freshGameId, { teamId := dashTeamId, title := title })] }
  match updateDoc s1.gameRequests rid (fun r => { r with status := .approved }) with
  | some grs => { s1 with gameRequests := grs }
  | none => { s1 with gameRequests := deleteDoc s1.gameRequests rid }

/-- Embeds `countCoordinators` (`src/unnamed/part_004`, lines 501-508):
query users with the given `teamId` and count those whose
`isCoordinator` field is truthy (the query page limit is elided). -/
def countCoordinators (s : Store) (tid : String) : Nat :=
  ((s.users.filter (fun p => p.2.teamId == some tid)).filter
    (fun p => p.2.isCoordinator)).length

/-- Embeds `handleLeaveTeam` (`src/unnamed/part_004`, lines 510-550): if
the coordinator count of the dashboard's team is at most one, refuse
("You are the last coordinator"); otherwise (after the confirm dialog)
write `teamId:'', isCoordinator:false` to the caller's user record. -/
def handleLeaveTeam (s : Store) (uid : String) (tid : String) : OpResult :=
  if countCoordinators s tid ≤ 1 then .err .lastCoordinator s
  else
    match updateDoc s.users uid
        (fun u => { u with teamId := some "", isCoordinator := false }) with
    | none => .err .notFound s
    | some users1 => .ok { s with users := users1 }

/-- Embeds `handleDeleteTeam` (`src/unnamed/part_004`, lines 553-606):
gather the games, requests and users referencing the team, then batch
delete the games and requests, write `teamId:'', isCoordinator:false` to
each referencing user, and delete the team document.  Game requests are
not touched. -/
def handleDeleteTeam (s : Store) (tid : String) : Store :=
  let targets := (s.users.filter (fun p => p.2.teamId == some tid)).map (fun p => p.1)
  { s with
    games := s.games.filter (fun p => !(p.2.teamId == tid))
    requests := s.requests.filter (fun p => !(p.2.teamId == tid))
    users := s.users.map (fun p =>
      if targets.contains p.1 then
        (p.1, { p.2 with teamId := some "", isCoordinator := false })
      else p)
    teams := deleteDoc s.teams tid }

end Dashboard004

namespace JoinTeamScreen

/-- Embeds `handleSendRequest` of the JoinTeamScreen variant
(`src/unnamed/part_007`, lines 91-163): read the caller's user document
(error when absent); refuse when its `teamId` is truthy; refuse when a
pending request for the same (user, team) pair exists; otherwise create
a new request with status `pending`. -/
def handleSendRequest (s : Store) (uid : String) (uemail : String)
    (selTeamId : String) (selTeamName : String) (freshId : String) : OpResult :=
  match getDoc s.users uid with
  | none => .err .notFound s
  | some u =>
    if truthyStr u.teamId then .err .alreadyInTeam s
    else if !(s.requests.filter (fun p =>
        p.2.userId == uid && p.2.teamId == selTeamId
          && p.2.status == ReqStatus.pending)).isEmpty then
      .err .duplicateRequest s
    else
      .ok { s with requests := s.requests ++
        [(freshId, { userId := uid, userEmail := uemail, teamId := selTeamId,
                     teamName := selTeamName, status := .pending })] }

end JoinTeamScreen

namespace FindATeam

/-- Embeds `handleSendRequest` of `src/app/(tabs)/FindATeam.tsx` (lines
231-305): read the caller's user document (error when absent); refuse
when its `teamId` is truthy; otherwise create a new pending request.
Unlike the JoinTeamScreen variant there is no duplicate-pending check. -/
def handleSendRequest (s : Store) (uid : String) (uemail : String)
    (selTeamId : String) (selTeamName : String) (freshId : String) : OpResult :=
  match getDoc s.users uid with
  | none => .err .notFound s
  | some u =>
    if truthyStr u.teamId then .err .alreadyInTeam s
    else
      .ok { s with requests := s.requests ++
        [(freshId, { userId := uid, userEmail := uemail, teamId := selTeamId,
                     teamName := selTeamName, status := .pending })] }

end FindATeam

namespace ManageTeamScreen

/-- Embeds `handleLeaveTeam` of the ManageTeamScreen variant
(`src/unnamed/part_006`, lines 52-64), reachable only from the
non-coordinator branch of that screen: return silently when the loaded
user data has no truthy `teamId`, otherwise write
`teamId:null, isCoordinator:false` to the caller's record. -/
def handleLeaveTeam (s : Store) (uid : String) : OpResult :=
  match getDoc s.users uid with
  | none => .ok s
  | some u =>
    if !(truthyStr u.teamId) then .ok s
    else
      match updateDoc s.users uid
          (fun v => { v with teamId := none, isCoordinator := false }) with
      | none => .err .notFound s
      | some users1 => .ok { s with users := users1 }

end ManageTeamScreen

/-- JavaScript `String.prototype.trim`, modelled over the character
list (whitespace stripped from both ends). -/
def strTrim (s : String) : String :=
  ⟨((s.data.dropWhile Char.isWhitespace).reverse.dropWhile
      Char.isWhitespace).reverse⟩

namespace CreateTeamA

/-- Embeds `handleCreateTeam` of the first CreateTeamScreen variant
(`src/app/(tabs)/CreateTeamScreen.tsx`, lines 208-314): require a signed
in caller and a non-blank name and location; if the caller's user
document exists, refuse when `isCoordinator` is set or `teamId` is
truthy; then create the team and upsert the caller's user record with
`teamId:<new id>, isCoordinator:true`. -/
def handleCreateTeam (s : Store) (signedIn : Option String)
    (name : String) (pickedPlace : Option String) (locText : String)
    (freshId : String) : OpResult :=
  match signedIn with
  | none => .err .notSignedIn s
  | some uid =>
    if strTrim name == "" || (pickedPlace == none && strTrim locText == "") then
      .err .missingInfo s
    else
      let blocked : Option AppError :=
        match getDoc s.users uid with
        | some u =>
          if u.isCoordinator then some .alreadyCoordinator
          else if truthyStr u.teamId then some .alreadyMember
          else none
        | none => none
      match blocked with
      | some e => .err e s
      | none =>
        let s1 : Store :=
          { s with teams := s.teams ++ [(freshId, { teamName := strTrim name, createdBy := uid })] }
        let users1 := setDocMerge s1.users uid
          (fun u => { u with teamId := some freshId, isCoordinator := true })
          { teamId := some freshId, isCoordinator := true }
        .ok { s1 with users := users1 }

end CreateTeamA

namespace CreateTeamLegacy

/-- Embeds `checkTeamExists` of the legacy CreateTeamScreen variant
(`src/app/(tabs)/CreateTeamScreen.tsx`, lines 516-520): a query for
teams whose `teamName` equals the given name exactly
(case-sensitive). -/
def checkTeamExists (s : Store) (name : String) : Bool :=
  !(s.teams.filter (fun p => p.2.teamName == name)).isEmpty

/-- Embeds `handleCreateTeam` of the legacy variant (lines 523-576):
refuse when the name is empty or no rink was selected; refuse as a
duplicate when `checkTeamExists` holds of the trimmed name; refuse when
no user is signed in; otherwise create the team and update the caller's
user record with `teamId:<new id>, role:'coordinator'`. -/
def handleCreateTeam (s : Store) (signedIn : Option String)
    (name : String) (rink : Option String) (freshId : String) : OpResult :=
  if name == "" || rink == none then .err .missingInfo s
  else if checkTeamExists s (strTrim name) then .err .duplicateTeamName s
  else
    match signedIn with
    | none => .err .notSignedIn s
    | some uid =>
      let s1 : Store :=
        { s with teams := s.teams ++ [(freshId, { teamName := strTrim name, createdBy := uid })] }
      match updateDoc s1.users uid
          (fun u => { u with teamId := some freshId, role := some "coordinator" }) with
      | none => .err .notFound s1
      | some users1 => .ok { s1 with users := users1 }

end CreateTeamLegacy

namespace SignupScreen

/-- Embeds the user-document write of `src/app/(auth)/SignupScreen.tsx`
(line 262): `setDoc` of a fresh profile carrying neither a `teamId` nor
an `isCoordinator` field (both read back as falsy). -/
def signupCreateUser (s : Store) (uid : String) (name : String)
    (email : String) : Store :=
  let users1 := setDocMerge s.users uid
    (fun _ => { name := name, email := email })
    { name := name, email := email }
  { s with users := users1 }

end SignupScreen

namespace FindGames

/-- Conversion factor `KM_TO_MILES` of
`src/app/(tabs)/FindGamesScreen.tsx` line 9. -/
def KM_TO_MILES : ℚ := 621371 / 1000000

/-- A game document as seen by the discovery screen: coordinates are
nullable (unresolvable coordinates are a `none`). -/
structure GameEntry where
  id : String
  lat : Option ℚ := none
  lng : Option ℚ := none
deriving DecidableEq, Repr

/-- A search result: the game enriched with its computed distance in
miles (display-only enrichment fields are omitted). -/
structure EnrichedGame where
  id : String
  lat : ℚ
  lng : ℚ
  distanceMiles : ℚ
deriving DecidableEq, Repr

/-- The per-game mapping step of `searchNearbyGames`
(`src/app/(tabs)/FindGamesScreen.tsx`, lines 160-230): a game without
resolvable coordinates maps to `none` (it is dropped by the
`filter(Boolean)` step); otherwise the distance from the origin is
computed in kilometres and converted to miles.  The kilometre distance
function is a parameter standing for `haversineDistanceKm`, which is
transcendental and modelled separately over the reals. -/
def enrichGame (distKm : ℚ → ℚ → ℚ → ℚ → ℚ) (origin : ℚ × ℚ)
    (g : GameEntry) : Option EnrichedGame :=
  match g.lat, g.lng with
  | some la, some ln =>
    some { id := g.id, lat := la, lng := ln,
           distanceMiles := distKm origin.1 origin.2 la ln * KM_TO_MILES }
  | _, _ => none

/-- Embeds the result pipeline of `searchNearbyGames`
(`src/app/(tabs)/FindGamesScreen.tsx`, lines 124-243): enrich each game
with its distance, drop games without coordinates, keep games with
`distanceMiles <= radiusMiles`, and sort ascending by distance (the
JavaScript comparator `a.distanceMiles - b.distanceMiles`, modelled by a
sort with respect to the distance order). -/
def searchNearbyGames (distKm : ℚ → ℚ → ℚ → ℚ → ℚ) (origin : ℚ × ℚ)
    (radiusMiles : ℚ) (games : List GameEntry) : List EnrichedGame :=
  ((games.filterMap (enrichGame distKm origin)).filter
    (fun e => decide (e.distanceMiles ≤ radiusMiles))).insertionSort
    (fun a b => a.distanceMiles ≤ b.distanceMiles)

end FindGames

namespace Locations

open Real

/-- Degree-to-radian helper `toRad` of `haversineDistanceKm`
(`src/src/locations.ts` line 97). -/
noncomputable def toRad (v : ℝ) : ℝ := v * Real.pi / 180

/-- JavaScript `Math.atan2(y, x)` over the reals (the four-quadrant
arctangent; the NaN cases of floating point do not arise over ℝ). -/
noncomputable def atan2 (y x : ℝ) : ℝ :=
  open Classical in
  if 0 < x then Real.arctan (y / x)
  else if x < 0 ∧ 0 ≤ y then Real.arctan (y / x) + Real.pi
  else if x < 0 ∧ y < 0 then Real.arctan (y / x) - Real.pi
  else if x = 0 ∧ 0 < y then Real.pi / 2
  else if x = 0 ∧ y < 0 then -(Real.pi / 2)
  else 0

/-- Embeds `haversineDistanceKm` of `src/src/locations.ts` (lines
96-106): the haversine formula with Earth radius 6371 km, computed with
the `atan2` formulation `c = 2*atan2(sqrt a, sqrt (1-a))`. -/
noncomputable def haversineDistanceKm (lat1 lon1 lat2 lon2 : ℝ) : ℝ :=
  let R : ℝ := 6371
  let dLat := toRad (lat2 - lat1)
  let dLon := toRad (lon2 - lon1)
  let a := Real.sin (dLat / 2) * Real.sin (dLat / 2) +
    Real.cos (toRad lat1) * Real.cos (toRad lat2) *
      (Real.sin (dLon / 2) * Real.sin (dLon / 2))
  let c := 2 * atan2 (Real.sqrt a) (Real.sqrt (1 - a))
  R * c

/-- Modelled from the specification text, for comparison with
`haversineDistanceKm`: the arcsine formulation
`d_km = 2*R*asin(sqrt(sin^2(dLat/2) + cos(lat1)*cos(lat2)*sin^2(dLng/2)))`
with `R = 6371`. -/
noncomputable def specHaversineKm (lat1 lon1 lat2 lon2 : ℝ) : ℝ :=
  2 * 6371 * Real.arcsin (Real.sqrt (
    Real.sin (toRad (lat2 - lat1) / 2) ^ 2 +
      Real.cos (toRad lat1) * Real.cos (toRad lat2) *
        Real.sin (toRad (lon2 - lon1) / 2) ^ 2))

end Locations

section CollLemmas

variable {α : Type}

theorem getDoc_cons (p : String × α) (l : Coll α) (i : String) :
    getDoc (p :: l) i = if p.1 == i then some p.2 else getDoc l i := by
  by_cases h : p.1 == i <;> simp [getDoc, List.find?, h]

theorem any_key_of_getDoc {l : Coll α} {i : String} {a : α}
    (h : getDoc l i = some a) : l.any (fun p => p.1 == i) = true := by
  induction l with
  | nil => simp [getDoc] at h
  | cons p t ih =>
    rw [getDoc_cons] at h
    by_cases hp : p.1 == i
    · simp [List.any_cons, hp]
    · simp only [hp, if_neg, Bool.false_eq_true] at h
      simp [List.any_cons, ih h]

theorem updateDoc_of_getDoc {l : Coll α} {i : String} {a : α} (f : α → α)
    (h : getDoc l i = some a) :
    updateDoc l i f = some (l.map (fun p => if p.1 == i then (p.1, f p.2) else p)) := by
  simp [updateDoc, any_key_of_getDoc h]

theorem getDoc_map_update {l : Coll α} {i : String} {a : α} (f : α → α)
    (h : getDoc l i = some a) :
    getDoc (l.map (fun p => if p.1 == i then (p.1, f p.2) else p)) i = some (f a) := by
  induction l with
  | nil => simp [getDoc] at h
  | cons p t ih =>
    rw [getDoc_cons] at h
    by_cases hp : p.1 = i
    · simp only [hp, beq_self_eq_true, if_pos] at h
      cases h
      simp [List.map_cons, getDoc_cons, hp]
    · have hpb : ¬(p.1 == i) = true := by simpa using hp
      simp only [hpb, Bool.false_eq_true, if_false] at h
      simpa [List.map_cons, getDoc_cons, hp] using ih h

theorem getDoc_map_update_ne {l : Coll α} {i j : String} (f : α → α)
    (hne : i ≠ j) :
    getDoc (l.map (fun p => if p.1 == i then (p.1, f p.2) else p)) j = getDoc l j := by
  induction l with
  | nil => simp [getDoc]
  | cons p t ih =>
    by_cases hp : p.1 = i
    · have hpj : p.1 ≠ j := by rw [hp]; exact hne
      simpa [List.map_cons, getDoc_cons, hp, hpj, hne] using ih
    · by_cases hj : p.1 = j
      · simp [List.map_cons, getDoc_cons, hp, hj, Ne.symm hne]
      · simpa [List.map_cons, getDoc_cons, hp, hj] using ih

theorem getDoc_filter_of_key_true {l : Coll α} {i : String}
    (pred : String × α → Bool) (hkeep : ∀ p : String × α, p.1 = i → pred p = true) :
    getDoc (l.filter pred) i = getDoc l i := by
  induction l with
  | nil => simp [getDoc]
  | cons p t ih =>
    by_cases hp : p.1 = i
    · have : pred p = true := hkeep p hp
      simp [List.filter_cons, this, getDoc_cons, hp, ih]
    · by_cases hpred : pred p
      · simp [List.filter_cons, hpred, getDoc_cons, hp, ih]
      · simp [List.filter_cons, hpred, getDoc_cons, hp, ih]

theorem getDoc_append_of_none {l : Coll α} {i : String}
    (h : getDoc l i = none) (q : String × α) :
    getDoc (l ++ [q]) i = if q.1 == i then some q.2 else none := by
  induction l with
  | nil =>
    show getDoc (q :: []) i = _
    rw [getDoc_cons]
    by_cases hq : q.1 = i <;> simp [getDoc, hq]
  | cons p t ih =>
    rw [getDoc_cons] at h
    by_cases hp : p.1 = i
    · simp [hp] at h
    · have hpb : ¬(p.1 == i) = true := by simpa using hp
      simp only [hpb, Bool.false_eq_true, if_false] at h
      simp [List.cons_append, getDoc_cons, hp, ih h]

theorem getDoc_of_not_mem_key {l : Coll α} {i : String}
    (h : ∀ p ∈ l, ¬(p.1 == i)) : getDoc l i = none := by
  induction l with
  | nil => simp [getDoc]
  | cons p t ih =>
    have hp := h p (by simp)
    rw [getDoc_cons]
    simp only [hp, Bool.false_eq_true, if_false]
    exact ih (fun q hq => h q (by simp [hq]))

end CollLemmas

section ApproveLemmas

/-- Closed form of the SDK-variant approve handler when both the
requester's user document and the request document exist. -/
theorem handleApprove_eq_ok (s : Store) (rid : String) (req : RequestDoc)
    {u : UserDoc} (huser : getDoc s.users req.userId = some u)
    {q : RequestDoc} (hreq : getDoc s.requests rid = some q) :
    CoordinatorDashboard.handleApprove s rid req = .ok { s with
      users := s.users.map (fun p => if p.1 == req.userId then
        (p.1, { p.2 with isCoordinator := true, teamId := some req.teamId }) else p),
      requests := (s.requests.map (fun p => if p.1 == rid then
          (p.1, { p.2 with status := ReqStatus.approved }) else p)).filter
        (fun p => !(p.1 != rid && p.2.teamId == req.teamId
          && p.2.status == ReqStatus.pending)) } := by
  unfold CoordinatorDashboard.handleApprove
  simp only [updateDoc_of_getDoc _ huser, updateDoc_of_getDoc _ hreq]

/-- Closed form of the REST-variant approve handler. -/
theorem handleApprove004_eq_ok (s : Store) (rid : String) (req : RequestDoc)
    {u : UserDoc} (huser : getDoc s.users req.userId = some u)
    {q : RequestDoc} (hreq : getDoc s.requests rid = some q) :
    Dashboard004.handleApprove s rid req = .ok { s with
      users := s.users.map (fun p => if p.1 == req.userId then
        (p.1, { p.2 with isCoordinator := true, teamId := some req.teamId }) else p),
      requests := (s.requests.map (fun p => if p.1 == rid then
          (p.1, { p.2 with status := ReqStatus.approved }) else p)).filter
        (fun p => !(p.1 != rid && p.2.teamId == req.teamId)) } := by
  unfold Dashboard004.handleApprove
  simp only [updateDoc_of_getDoc _ huser, updateDoc_of_getDoc _ hreq]

end ApproveLemmas

/-- Post-state facts shared by both approve variants; `strictSibs` tells
whether the sibling filter also checks `status == pending` (SDK variant)
or matches on `teamId` alone (REST variant). -/
theorem approve_post (s : Store) (rid : String) (req : RequestDoc)
    (u : UserDoc) (huser : getDoc s.users req.userId = some u)
    (hreq : getDoc s.requests rid = some req)
    (pred : String × RequestDoc → Bool)
    (hpred : ∀ p : String × RequestDoc,
      pred p = !(p.1 != rid && p.2.teamId == req.teamId) ∨
      pred p = !(p.1 != rid && p.2.teamId == req.teamId
        && p.2.status == ReqStatus.pending)) :
    let s1 : Store := { s with
      users := s.users.map (fun p => if p.1 == req.userId then
        (p.1, { p.2 with isCoordinator := true, teamId := some req.teamId }) else p),
      requests := (s.requests.map (fun p => if p.1 == rid then
          (p.1, { p.2 with status := ReqStatus.approved }) else p)).filter pred }
    getDoc s1.users req.userId =
      some { u with isCoordinator := true, teamId := some req.teamId } ∧
    getDoc s1.requests rid = some { req with status := ReqStatus.approved } ∧
    (∀ p ∈ s.requests, p.1 ≠ rid → p.2.teamId = req.teamId →
      p.2.status = ReqStatus.pending → p ∉ s1.requests) ∧
    (∀ q ∈ s1.requests, q.2.teamId = req.teamId →
      q.2.status ≠ ReqStatus.pending) := by
  intro s1
  refine ⟨?_, ?_, ?_, ?_⟩
  · exact getDoc_map_update
      (fun x => { x with isCoordinator := true, teamId := some req.teamId }) huser
  · have h1 : getDoc (s.requests.map (fun p => if p.1 == rid then
        (p.1, { p.2 with status := ReqStatus.approved }) else p)) rid =
        some { req with status := ReqStatus.approved } :=
      getDoc_map_update (fun x => { x with status := ReqStatus.approved }) hreq
    have h2 := getDoc_filter_of_key_true (l := s.requests.map (fun p => if p.1 == rid then
        (p.1, { p.2 with status := ReqStatus.approved }) else p)) (i := rid) pred ?_
    · exact h2.trans h1
    · intro p hp
      rcases hpred p with h | h <;> simp [h, hp]
  · intro p _ hne hteam hpend hmem
    have := (List.mem_filter.mp hmem).2
    rcases hpred p with h | h <;>
      simp [h, hne, hteam, hpend] at this
  · intro q hq hteam
    have hqm := (List.mem_filter.mp hq).1
    have hqp := (List.mem_filter.mp hq).2
    by_cases hkey : q.1 = rid
    · rcases List.mem_map.mp hqm with ⟨x, _, hx⟩
      by_cases hx1 : x.1 = rid
      · simp only [hx1, beq_self_eq_true, if_pos] at hx
        rw [← hx]
        simp
      · have hxb : ¬(x.1 == rid) = true := by simpa using hx1
        simp only [hxb, Bool.false_eq_true, if_false] at hx
        rw [← hx] at hkey
        exact absurd hkey hx1
    · rcases hpred q with h | h <;>
        · rw [h] at hqp
          simp [hkey, hteam] at hqp
          first
          | (intro hst; rw [hst] at hqp; simp at hqp)
          | skip

section Fixtures

/-- A user with no team, used as concrete input for witnesses. -/
def exUser1 : UserDoc := { name := "Alice", email := "a@x" }

/-- A second user with no team. -/
def exUser2 : UserDoc := { name := "Bob", email := "b@x" }

/-- Pending coordinator request of `u1` for team `t1`. -/
def exReq1 : RequestDoc :=
  { userId := "u1", userEmail := "a@x", teamId := "t1", teamName := "Eagles",
    status := .pending }

/-- Pending sibling request of `u2` for the same team `t1`. -/
def exReq2 : RequestDoc :=
  { userId := "u2", userEmail := "b@x", teamId := "t1", teamName := "Eagles",
    status := .pending }

/-- Store with one team, two users and two pending requests for it. -/
def exStore : Store :=
  { users := [("u1", exUser1), ("u2", exUser2)],
    teams := [("t1", { teamName := "Eagles", createdBy := "u0" })],
    requests := [("r1", exReq1), ("r2", exReq2)] }

end Fixtures

/-- C1: for every pending coordinator request R (id `rid`, body `req`)
for team T, approving R sets the requesting user's record to
`isCoordinator = true` and `teamId = T`, sets R's status to `approved`,
and deletes every other pending coordinator request for team T, so that
among the requests for T that were pending before the call exactly the
approved one remains (in `approved` state) and no request for T is left
pending.  This holds for both dashboard variants of `handleApprove`. -/
theorem approveRequest_single_winner
    (s : Store) (rid : String) (req : RequestDoc) (u : UserDoc)
    (hreq : getDoc s.requests rid = some req)
    (_hpend : req.status = ReqStatus.pending)
    (huser : getDoc s.users req.userId = some u) :
    (∃ s1, CoordinatorDashboard.handleApprove s rid req = .ok s1 ∧
      getDoc s1.users req.userId =
        some { u with isCoordinator := true, teamId := some req.teamId } ∧
      getDoc s1.requests rid = some { req with status := ReqStatus.approved } ∧
      (∀ p ∈ s.requests, p.1 ≠ rid → p.2.teamId = req.teamId →
        p.2.status = ReqStatus.pending → p ∉ s1.requests) ∧
      (∀ q ∈ s1.requests, q.2.teamId = req.teamId →
        q.2.status ≠ ReqStatus.pending)) ∧
    (∃ s2, Dashboard004.handleApprove s rid req = .ok s2 ∧
      getDoc s2.users req.userId =
        some { u with isCoordinator := true, teamId := some req.teamId } ∧
      getDoc s2.requests rid = some { req with status := ReqStatus.approved } ∧
      (∀ p ∈ s.requests, p.1 ≠ rid → p.2.teamId = req.teamId →
        p.2.status = ReqStatus.pending → p ∉ s2.requests) ∧
      (∀ q ∈ s2.requests, q.2.teamId = req.teamId →
        q.2.status ≠ ReqStatus.pending)) := by
  constructor
  · exact ⟨_, handleApprove_eq_ok s rid req huser hreq,
      approve_post s rid req u huser hreq _ (fun p => Or.inr rfl)⟩
  · exact ⟨_, handleApprove004_eq_ok s rid req huser hreq,
      approve_post s rid req u huser hreq _ (fun p => Or.inl rfl)⟩

/-- Witness for C1 at the concrete two-request store: request `r1` is
pending, approving it succeeds in both variants, and the pending sibling
`r2` is gone from the resulting store. -/
theorem approveRequest_single_winner_witness :
    getDoc exStore.requests "r1" = some exReq1 ∧
    exReq1.status = ReqStatus.pending ∧
    getDoc exStore.users "u1" = some exUser1 ∧
    (∃ s1, CoordinatorDashboard.handleApprove exStore "r1" exReq1 = .ok s1 ∧
      ("r2", exReq2) ∉ s1.requests) ∧
    (∃ s2, Dashboard004.handleApprove exStore "r1" exReq1 = .ok s2 ∧
      ("r2", exReq2) ∉ s2.requests) := by
  have h := approveRequest_single_winner exStore "r1" exReq1 exUser1
    (by decide) (by decide) (by decide)
  obtain ⟨⟨s1, hok1, _, _, hdel1, _⟩, ⟨s2, hok2, _, _, hdel2, _⟩⟩ := h
  refine ⟨by decide, by decide, by decide, ⟨s1, hok1, ?_⟩, ⟨s2, hok2, ?_⟩⟩
  · exact hdel1 ("r2", exReq2) (by decide) (by decide) (by decide) (by decide)
  · exact hdel2 ("r2", exReq2) (by decide) (by decide) (by decide) (by decide)

section IdemLemmas

variable {α : Type}

theorem getDoc_isSome_of_any {l : Coll α} {i : String}
    (h : l.any (fun p => p.1 == i) = true) : ∃ a, getDoc l i = some a := by
  induction l with
  | nil => simp at h
  | cons p t ih =>
    by_cases hp : p.1 = i
    · exact ⟨p.2, by simp [getDoc_cons, hp]⟩
    · have hpb : ¬(p.1 == i) = true := by simpa using hp
      simp only [List.any_cons, hpb, Bool.false_or] at h
      obtain ⟨a, ha⟩ := ih h
      exact ⟨a, by simp [getDoc_cons, hp, ha]⟩

theorem updateDoc_some_inv {l l' : Coll α} {i : String} {f : α → α}
    (h : updateDoc l i f = some l') :
    (∃ a, getDoc l i = some a) ∧
      l' = l.map (fun p => if p.1 == i then (p.1, f p.2) else p) := by
  unfold updateDoc at h
  by_cases hany : l.any (fun p => p.1 == i) = true
  · simp only [hany, if_pos, Option.some.injEq] at h
    exact ⟨getDoc_isSome_of_any hany, h.symm⟩
  · simp [hany] at h

theorem map_eq_self_on {β : Type} (l : List β) (g : β → β)
    (h : ∀ y ∈ l, g y = y) : l.map g = l := by
  induction l with
  | nil => rfl
  | cons p t ih =>
    simp only [List.map_cons, h p (by simp)]
    rw [ih (fun y hy => h y (by simp [hy]))]

theorem map_update_idem (l : Coll α) (i : String) (f : α → α)
    (hf : ∀ x, f (f x) = f x) :
    (l.map (fun p => if p.1 == i then (p.1, f p.2) else p)).map
        (fun p => if p.1 == i then (p.1, f p.2) else p) =
      l.map (fun p => if p.1 == i then (p.1, f p.2) else p) := by
  rw [List.map_map]
  refine List.map_congr_left (fun p _ => ?_)
  by_cases hp : p.1 = i <;> simp [Function.comp, hp, hf]

end IdemLemmas

theorem updateDoc_none_of_getDoc_none {α : Type} {l : Coll α} {i : String}
    (f : α → α) (h : getDoc l i = none) : updateDoc l i f = none := by
  unfold updateDoc
  suffices hany : l.any (fun p => p.1 == i) = false by simp [hany]
  by_contra hb
  obtain ⟨a, ha⟩ := getDoc_isSome_of_any (by simpa using hb)
  rw [h] at ha
  cases ha

/-- C10: the approve handler is idempotent: a second invocation on the
store produced by a successful first invocation (same request object)
re-performs the same writes and returns success with the store
unchanged; no already-resolved or invalid-state error is raised.  Holds
for both dashboard variants. -/
theorem approveRequest_idempotent
    (s : Store) (rid : String) (req : RequestDoc) :
    (∀ s1, CoordinatorDashboard.handleApprove s rid req = .ok s1 →
      CoordinatorDashboard.handleApprove s1 rid req = .ok s1) ∧
    (∀ s2, Dashboard004.handleApprove s rid req = .ok s2 →
      Dashboard004.handleApprove s2 rid req = .ok s2) := by
  have hfidem : ∀ x : UserDoc,
      ({ ({ x with isCoordinator := true, teamId := some req.teamId } : UserDoc) with
        isCoordinator := true, teamId := some req.teamId } : UserDoc) =
      { x with isCoordinator := true, teamId := some req.teamId } := fun _ => rfl
  -- document existence whenever the first run succeeded
  have husers_ex : ∀ sx : Store, ∀ r : OpResult,
      (∀ e, r ≠ .err e sx) →
      (updateDoc sx.users req.userId
        (fun u => { u with isCoordinator := true, teamId := some req.teamId }) = none →
        r = .err .notFound sx) →
      ∃ u, getDoc sx.users req.userId = some u := by
    intro sx r hne himp
    cases hg : getDoc sx.users req.userId with
    | some u => exact ⟨u, rfl⟩
    | none =>
      exact absurd (himp (updateDoc_none_of_getDoc_none _ hg)) (by intro hr; exact hne _ hr)
  constructor
  · intro s1 h
    have hu : ∃ u, getDoc s.users req.userId = some u := by
      cases hg : getDoc s.users req.userId with
      | some u => exact ⟨u, rfl⟩
      | none =>
        have : CoordinatorDashboard.handleApprove s rid req = .err .notFound s := by
          unfold CoordinatorDashboard.handleApprove
          rw [updateDoc_none_of_getDoc_none _ hg]
        rw [this] at h
        cases h
    obtain ⟨u, hu⟩ := hu
    have hr : ∃ r0, getDoc s.requests rid = some r0 := by
      cases hg : getDoc s.requests rid with
      | some r0 => exact ⟨r0, rfl⟩
      | none =>
        have : CoordinatorDashboard.handleApprove s rid req =
            .err .notFound { s with users := s.users.map (fun p => if p.1 == req.userId then
              (p.1, { p.2 with isCoordinator := true, teamId := some req.teamId }) else p) } := by
          unfold CoordinatorDashboard.handleApprove
          simp only [updateDoc_of_getDoc _ hu,
            updateDoc_none_of_getDoc_none
              (fun r : RequestDoc => { r with status := ReqStatus.approved }) hg]
        rw [this] at h
        cases h
    obtain ⟨r0, hr0⟩ := hr
    have hclosed := handleApprove_eq_ok s rid req hu hr0
    rw [hclosed, OpResult.ok.injEq] at h
    rw [← h]
    -- point reads in the post-state
    have hu1 := getDoc_map_update
      (fun x => { x with isCoordinator := true, teamId := some req.teamId }) hu
    have hmapr := getDoc_map_update
      (fun x => { x with status := ReqStatus.approved }) hr0
    have hfilr := getDoc_filter_of_key_true
      (l := s.requests.map (fun p => if p.1 == rid then
        (p.1, { p.2 with status := ReqStatus.approved }) else p)) (i := rid)
      (fun p => !(p.1 != rid && p.2.teamId == req.teamId
        && p.2.status == ReqStatus.pending)) (by intro p hp; simp [hp])
    have hrun := handleApprove_eq_ok
      ({ s with
        users := s.users.map (fun p => if p.1 == req.userId then
          (p.1, { p.2 with isCoordinator := true, teamId := some req.teamId }) else p),
        requests := (s.requests.map (fun p => if p.1 == rid then
            (p.1, { p.2 with status := ReqStatus.approved }) else p)).filter
          (fun p => !(p.1 != rid && p.2.teamId == req.teamId
            && p.2.status == ReqStatus.pending)) } : Store)
      rid req (u := { u with isCoordinator := true, teamId := some req.teamId })
      (by simpa using hu1) (q := { r0 with status := ReqStatus.approved })
      (by simpa using hfilr.trans hmapr)
    rw [hrun]
    have e1 := map_update_idem s.users req.userId
      (fun x => { x with isCoordinator := true, teamId := some req.teamId }) hfidem
    have e4 : (((s.requests.map (fun p => if p.1 == rid then
          (p.1, { p.2 with status := ReqStatus.approved }) else p)).filter
        (fun p => !(p.1 != rid && p.2.teamId == req.teamId
            && p.2.status == ReqStatus.pending))).map (fun p => if p.1 == rid then
          (p.1, { p.2 with status := ReqStatus.approved }) else p)) =
        ((s.requests.map (fun p => if p.1 == rid then
          (p.1, { p.2 with status := ReqStatus.approved }) else p)).filter
        (fun p => !(p.1 != rid && p.2.teamId == req.teamId
            && p.2.status == ReqStatus.pending))) := by
      refine map_eq_self_on _ _ (fun y hy => ?_)
      rcases List.mem_map.mp (List.mem_filter.mp hy).1 with ⟨x, _, hx⟩
      by_cases hx1 : x.1 = rid
      · simp only [hx1, beq_self_eq_true, if_pos] at hx
        rw [← hx]; simp
      · have hxb : ¬(x.1 == rid) = true := by simpa using hx1
        simp only [hxb, Bool.false_eq_true, if_false] at hx
        rw [← hx]; simp [hx1]
    have e5 : (((s.requests.map (fun p => if p.1 == rid then
          (p.1, { p.2 with status := ReqStatus.approved }) else p)).filter
        (fun p => !(p.1 != rid && p.2.teamId == req.teamId
            && p.2.status == ReqStatus.pending))).filter
        (fun p => !(p.1 != rid && p.2.teamId == req.teamId
            && p.2.status == ReqStatus.pending))) =
        ((s.requests.map (fun p => if p.1 == rid then
          (p.1, { p.2 with status := ReqStatus.approved }) else p)).filter
        (fun p => !(p.1 != rid && p.2.teamId == req.teamId
            && p.2.status == ReqStatus.pending))) :=
      List.filter_eq_self.mpr (fun y hy => (List.mem_filter.mp hy).2)
    simp only [e1, e4, e5]
  · intro s2 h
    have hu : ∃ u, getDoc s.users req.userId = some u := by
      cases hg : getDoc s.users req.userId with
      | some u => exact ⟨u, rfl⟩
      | none =>
        have : Dashboard004.handleApprove s rid req = .err .notFound s := by
          unfold Dashboard004.handleApprove
          rw [updateDoc_none_of_getDoc_none _ hg]
        rw [this] at h
        cases h
    obtain ⟨u, hu⟩ := hu
    have hr : ∃ r0, getDoc s.requests rid = some r0 := by
      cases hg : getDoc s.requests rid with
      | some r0 => exact ⟨r0, rfl⟩
      | none =>
        have : Dashboard004.handleApprove s rid req =
            .err .notFound { s with users := s.users.map (fun p => if p.1 == req.userId then
              (p.1, { p.2 with isCoordinator := true, teamId := some req.teamId }) else p) } := by
          unfold Dashboard004.handleApprove
          simp only [updateDoc_of_getDoc _ hu,
            updateDoc_none_of_getDoc_none
              (fun r : RequestDoc => { r with status := ReqStatus.approved }) hg]
        rw [this] at h
        cases h
    obtain ⟨r0, hr0⟩ := hr
    have hclosed := handleApprove004_eq_ok s rid req hu hr0
    rw [hclosed, OpResult.ok.injEq] at h
    rw [← h]
    have hu1 := getDoc_map_update
      (fun x => { x with isCoordinator := true, teamId := some req.teamId }) hu
    have hmapr := getDoc_map_update
      (fun x => { x with status := ReqStatus.approved }) hr0
    have hfilr := getDoc_filter_of_key_true
      (l := s.requests.map (fun p => if p.1 == rid then
        (p.1, { p.2 with status := ReqStatus.approved }) else p)) (i := rid)
      (fun p => !(p.1 != rid && p.2.teamId == req.teamId)) (by intro p hp; simp [hp])
    have hrun := handleApprove004_eq_ok
      ({ s with
        users := s.users.map (fun p => if p.1 == req.userId then
          (p.1, { p.2 with isCoordinator := true, teamId := some req.teamId }) else p),
        requests := (s.requests.map (fun p => if p.1 == rid then
            (p.1, { p.2 with status := ReqStatus.approved }) else p)).filter
          (fun p => !(p.1 != rid && p.2.teamId == req.teamId)) } : Store)
      rid req (u := { u with isCoordinator := true, teamId := some req.teamId })
      (by simpa using hu1) (q := { r0 with status := ReqStatus.approved })
      (by simpa using hfilr.trans hmapr)
    rw [hrun]
    have e1 := map_update_idem s.users req.userId
      (fun x => { x with isCoordinator := true, teamId := some req.teamId }) hfidem
    have e4 : (((s.requests.map (fun p => if p.1 == rid then
          (p.1, { p.2 with status := ReqStatus.approved }) else p)).filter
        (fun p => !(p.1 != rid && p.2.teamId == req.teamId))).map (fun p => if p.1 == rid then
          (p.1, { p.2 with status := ReqStatus.approved }) else p)) =
        ((s.requests.map (fun p => if p.1 == rid then
          (p.1, { p.2 with status := ReqStatus.approved }) else p)).filter
        (fun p => !(p.1 != rid && p.2.teamId == req.teamId))) := by
      refine map_eq_self_on _ _ (fun y hy => ?_)
      rcases List.mem_map.mp (List.mem_filter.mp hy).1 with ⟨x, _, hx⟩
      by_cases hx1 : x.1 = rid
      · simp only [hx1, beq_self_eq_true, if_pos] at hx
        rw [← hx]; simp
      · have hxb : ¬(x.1 == rid) = true := by simpa using hx1
        simp only [hxb, Bool.false_eq_true, if_false] at hx
        rw [← hx]; simp [hx1]
    have e5 : (((s.requests.map (fun p => if p.1 == rid then
          (p.1, { p.2 with status := ReqStatus.approved }) else p)).filter
        (fun p => !(p.1 != rid && p.2.teamId == req.teamId))).filter
        (fun p => !(p.1 != rid && p.2.teamId == req.teamId))) =
        ((s.requests.map (fun p => if p.1 == rid then
          (p.1, { p.2 with status := ReqStatus.approved }) else p)).filter
        (fun p => !(p.1 != rid && p.2.teamId == req.teamId))) :=
      List.filter_eq_self.mpr (fun y hy => (List.mem_filter.mp hy).2)
    simp only [e1, e4, e5]

/-- Witness for C10: at the two-request store, both variants approve
`r1` successfully and re-running the handler on the result is the
identity. -/
theorem approveRequest_idempotent_witness :
    (∃ s1, CoordinatorDashboard.handleApprove exStore "r1" exReq1 = .ok s1 ∧
      CoordinatorDashboard.handleApprove s1 "r1" exReq1 = .ok s1) ∧
    (∃ s2, Dashboard004.handleApprove exStore "r1" exReq1 = .ok s2 ∧
      Dashboard004.handleApprove s2 "r1" exReq1 = .ok s2) := by
  have h := approveRequest_idempotent exStore "r1" exReq1
  refine ⟨⟨(CoordinatorDashboard.handleApprove exStore "r1" exReq1).state, ?_, ?_⟩,
    ⟨(Dashboard004.handleApprove exStore "r1" exReq1).state, ?_, ?_⟩⟩
  · decide
  · exact h.1 _ (by decide)
  · decide
  · exact h.2 _ (by decide)

/-- The per-user record invariant: a coordinator flag implies a non-null
team reference. -/
def InvU (u : UserDoc) : Prop := u.isCoordinator = true → u.teamId ≠ none

instance : DecidablePred InvU := fun u => by unfold InvU; infer_instance

/-- The store-wide user invariant of the specification:
`isCoordinator == true` implies `teamId != null` for every user. -/
def UserInv (s : Store) : Prop := ∀ p ∈ s.users, InvU p.2

instance : DecidablePred UserInv := fun s => by unfold UserInv; infer_instance

theorem userInv_map_cond (users : Coll UserDoc) (c : String × UserDoc → Bool)
    (g : UserDoc → UserDoc) (h : ∀ p ∈ users, InvU p.2)
    (hg : ∀ u, InvU u → InvU (g u)) :
    ∀ p ∈ users.map (fun p => if c p then (p.1, g p.2) else p), InvU p.2 := by
  intro p hp
  rcases List.mem_map.mp hp with ⟨x, hx, he⟩
  by_cases hc : c x
  · simp only [hc, if_pos] at he
    rw [← he]
    exact hg x.2 (h x hx)
  · simp only [hc, Bool.false_eq_true, if_false] at he
    rw [← he]
    exact h x hx

theorem userInv_updateDoc {s : Store} {i : String} {f : UserDoc → UserDoc}
    {users1 : Coll UserDoc} (hs : UserInv s)
    (hf : ∀ u, InvU u → InvU (f u))
    (h : updateDoc s.users i f = some users1) :
    ∀ p ∈ users1, InvU p.2 := by
  obtain ⟨_, hmap⟩ := updateDoc_some_inv h
  rw [hmap]
  exact userInv_map_cond s.users _ f hs hf

theorem userInv_setDocMerge {s : Store} {i : String} (f : UserDoc → UserDoc)
    (mk : UserDoc) (hs : UserInv s) (hf : ∀ u, InvU u → InvU (f u))
    (hmk : InvU mk) :
    ∀ p ∈ setDocMerge s.users i f mk, InvU p.2 := by
  unfold setDocMerge
  by_cases hany : s.users.any (fun p => p.1 == i) = true
  · simp only [hany, if_pos]
    exact userInv_map_cond s.users _ f hs hf
  · simp only [hany, if_neg, Bool.false_eq_true, if_false]
    intro p hp
    rcases List.mem_append.mp hp with hmem | hmem
    · exact hs p hmem
    · rcases List.mem_singleton.mp hmem with rfl
      exact hmk

/-- C3: every embedded operation preserves the invariant that
`isCoordinator == true` implies a non-null `teamId`: each write that
sets the coordinator flag also sets a team reference in the same write,
and each write that clears a team reference also clears the flag.  The
conclusion is over the reached store, whether the call succeeded or
stopped at a refusal. -/
theorem userInvariant_preserved :
    (∀ s rid req, UserInv s →
      UserInv (CoordinatorDashboard.handleApprove s rid req).state) ∧
    (∀ s rid, UserInv s → UserInv (CoordinatorDashboard.handleReject s rid).state) ∧
    (∀ s rid req, UserInv s → UserInv (Dashboard004.handleApprove s rid req).state) ∧
    (∀ s rid, UserInv s → UserInv (Dashboard004.handleRejectGameRequest s rid)) ∧
    (∀ s rid tid title gid, UserInv s →
      UserInv (Dashboard004.handleApproveGameRequest s rid tid title gid)) ∧
    (∀ s uid tid, UserInv s → UserInv (Dashboard004.handleLeaveTeam s uid tid).state) ∧
    (∀ s tid, UserInv s → UserInv (Dashboard004.handleDeleteTeam s tid)) ∧
    (∀ s uid em tid tn fid, UserInv s →
      UserInv (JoinTeamScreen.handleSendRequest s uid em tid tn fid).state) ∧
    (∀ s uid em tid tn fid, UserInv s →
      UserInv (FindATeam.handleSendRequest s uid em tid tn fid).state) ∧
    (∀ s uid, UserInv s → UserInv (ManageTeamScreen.handleLeaveTeam s uid).state) ∧
    (∀ s si name pp lt fid, UserInv s →
      UserInv (CreateTeamA.handleCreateTeam s si name pp lt fid).state) ∧
    (∀ s si name rink fid, UserInv s →
      UserInv (CreateTeamLegacy.handleCreateTeam s si name rink fid).state) ∧
    (∀ s uid name em, UserInv s → UserInv (SignupScreen.signupCreateUser s uid name em)) := by
  refine ⟨?_, ?_, ?_, ?_, ?_, ?_, ?_, ?_, ?_, ?_, ?_, ?_, ?_⟩
  · intro s rid req hs
    unfold CoordinatorDashboard.handleApprove
    cases h1 : updateDoc s.users req.userId
        (fun u => { u with isCoordinator := true, teamId := some req.teamId }) with
    | none => exact hs
    | some users1 =>
      have hus : ∀ p ∈ users1, InvU p.2 :=
        userInv_updateDoc hs (fun u _ => by simp [InvU]) h1
      dsimp only
      cases h2 : updateDoc s.requests rid
          (fun r => { r with status := ReqStatus.approved }) with
      | none => exact hus
      | some reqs1 => exact hus
  · intro s rid hs
    unfold CoordinatorDashboard.handleReject
    cases updateDoc s.requests rid (fun r => { r with status := ReqStatus.rejected }) with
    | none => exact hs
    | some reqs1 => exact hs
  · intro s rid req hs
    unfold Dashboard004.handleApprove
    cases h1 : updateDoc s.users req.userId
        (fun u => { u with isCoordinator := true, teamId := some req.teamId }) with
    | none => exact hs
    | some users1 =>
      have hus : ∀ p ∈ users1, InvU p.2 :=
        userInv_updateDoc hs (fun u _ => by simp [InvU]) h1
      dsimp only
      cases h2 : updateDoc s.requests rid
          (fun r => { r with status := ReqStatus.approved }) with
      | none => exact hus
      | some reqs1 => exact hus
  · intro s rid hs
    unfold Dashboard004.handleRejectGameRequest
    cases updateDoc s.gameRequests rid (fun r => { r with status := ReqStatus.rejected }) with
    | none => exact hs
    | some grs => exact hs
  · intro s rid tid title gid hs
    unfold Dashboard004.handleApproveGameRequest
    dsimp only
    cases updateDoc s.gameRequests rid (fun r => { r with status := ReqStatus.approved }) with
    | none => exact hs
    | some grs => exact hs
  · intro s uid tid hs
    unfold Dashboard004.handleLeaveTeam
    by_cases hcnt : Dashboard004.countCoordinators s tid ≤ 1
    · rw [if_pos hcnt]
      exact hs
    · rw [if_neg hcnt]
      cases h1 : updateDoc s.users uid
          (fun u => { u with teamId := some "", isCoordinator := false }) with
      | none => exact hs
      | some users1 =>
        exact userInv_updateDoc hs (fun u _ => by simp [InvU]) h1
  · intro s tid hs
    unfold Dashboard004.handleDeleteTeam
    intro p hp
    dsimp only at hp
    refine userInv_map_cond s.users
      (fun p => ((s.users.filter (fun p => p.2.teamId == some tid)).map
        (fun p => p.1)).contains p.1)
      (fun u => { u with teamId := some "", isCoordinator := false }) hs ?_ p hp
    intro u _
    simp [InvU]
  · intro s uid em tid tn fid hs
    unfold JoinTeamScreen.handleSendRequest
    cases getDoc s.users uid with
    | none => exact hs
    | some u =>
      dsimp only
      by_cases ht : truthyStr u.teamId = true
      · rw [if_pos ht]; exact hs
      · rw [if_neg ht]
        by_cases hdup : (!(s.requests.filter (fun p =>
            p.2.userId == uid && p.2.teamId == tid
              && p.2.status == ReqStatus.pending)).isEmpty) = true
        · rw [if_pos hdup]; exact hs
        · rw [if_neg hdup]; exact hs
  · intro s uid em tid tn fid hs
    unfold FindATeam.handleSendRequest
    cases getDoc s.users uid with
    | none => exact hs
    | some u =>
      dsimp only
      by_cases ht : truthyStr u.teamId = true
      · rw [if_pos ht]; exact hs
      · rw [if_neg ht]; exact hs
  · intro s uid hs
    unfold ManageTeamScreen.handleLeaveTeam
    cases getDoc s.users uid with
    | none => exact hs
    | some u =>
      dsimp only
      by_cases ht : (!truthyStr u.teamId) = true
      · rw [if_pos ht]; exact hs
      · rw [if_neg ht]
        cases h1 : updateDoc s.users uid
            (fun v => { v with teamId := none, isCoordinator := false }) with
        | none => exact hs
        | some users1 =>
          exact userInv_updateDoc hs (fun u _ => by simp [InvU]) h1
  · intro s si name pp lt fid hs
    unfold CreateTeamA.handleCreateTeam
    cases si with
    | none => exact hs
    | some uid =>
      dsimp only
      by_cases hv : (strTrim name == "" || (pp == none && strTrim lt == "")) = true
      · rw [if_pos hv]; exact hs
      · rw [if_neg hv]
        cases hb : (match getDoc s.users uid with
          | some u =>
            if u.isCoordinator then some AppError.alreadyCoordinator
            else if truthyStr u.teamId then some AppError.alreadyMember
            else none
          | none => none) with
        | some e => exact hs
        | none =>
          intro p hp
          dsimp only at hp
          refine userInv_setDocMerge
            (fun u => { u with teamId := some fid, isCoordinator := true })
            { teamId := some fid, isCoordinator := true } hs ?_ ?_ p hp
          · intro u _
            simp [InvU]
          · simp [InvU]
  · intro s si name rink fid hs
    unfold CreateTeamLegacy.handleCreateTeam
    by_cases hv : (name == "" || rink == none) = true
    · rw [if_pos hv]; exact hs
    · rw [if_neg hv]
      by_cases hdup : CreateTeamLegacy.checkTeamExists s (strTrim name) = true
      · rw [if_pos hdup]; exact hs
      · rw [if_neg hdup]
        cases si with
        | none => exact hs
        | some uid =>
          dsimp only
          cases h1 : updateDoc s.users uid
              (fun u => { u with teamId := some fid, role := some "coordinator" }) with
          | none => exact hs
          | some users1 =>
            refine userInv_updateDoc (s := { s with teams := s.teams ++
              [(fid, { teamName := strTrim name, createdBy := uid })] }) hs ?_ h1
            intro u _
            simp [InvU]
  · intro s uid name em hs
    unfold SignupScreen.signupCreateUser
    intro p hp
    dsimp only at hp
    refine userInv_setDocMerge
      (fun _ => { name := name, email := em })
      { name := name, email := em } hs ?_ ?_ p hp
    · intro u _
      simp [InvU]
    · simp [InvU]

/-- Witness for C3: the invariant holds of the concrete store and of the
stores reached by approving request `r1` in both variants, by the legacy
leave handler, and by deleting team `t1`. -/
theorem userInvariant_preserved_witness :
    UserInv exStore ∧
    UserInv (CoordinatorDashboard.handleApprove exStore "r1" exReq1).state ∧
    UserInv (Dashboard004.handleApprove exStore "r1" exReq1).state ∧
    UserInv (ManageTeamScreen.handleLeaveTeam exStore "u1").state ∧
    UserInv (Dashboard004.handleDeleteTeam exStore "t1") := by
  have h := userInvariant_preserved
  refine ⟨by decide, ?_, ?_, ?_, ?_⟩
  · exact h.1 exStore "r1" exReq1 (by decide)
  · exact h.2.2.1 exStore "r1" exReq1 (by decide)
  · exact h.2.2.2.2.2.2.2.2.2.1 exStore "u1" (by decide)
  · exact h.2.2.2.2.2.2.1 exStore "t1" (by decide)

theorem getDoc_mem {α : Type} {l : Coll α} {i : String} {a : α}
    (h : getDoc l i = some a) : (i, a) ∈ l := by
  induction l with
  | nil => simp [getDoc] at h
  | cons p t ih =>
    rw [getDoc_cons] at h
    by_cases hp : p.1 = i
    · simp only [hp, beq_self_eq_true, if_pos, Option.some.injEq] at h
      have : (i, a) = p := by
        cases p
        simp only at hp h
        rw [hp, h]
      rw [this]
      exact List.mem_cons_self _ _
    · have hpb : ¬(p.1 == i) = true := by simpa using hp
      simp only [hpb, Bool.false_eq_true, if_false] at h
      exact List.mem_cons_of_mem _ (ih h)

theorem countCoordinators_pos {s : Store} {uid tid : String} {u : UserDoc}
    (hu : getDoc s.users uid = some u) (hteam : u.teamId = some tid)
    (hcoord : u.isCoordinator = true) :
    1 ≤ Dashboard004.countCoordinators s tid := by
  unfold Dashboard004.countCoordinators
  have hmem : (uid, u) ∈ s.users := getDoc_mem hu
  have h1 : (uid, u) ∈ s.users.filter (fun p => p.2.teamId == some tid) :=
    List.mem_filter.mpr ⟨hmem, by simp [hteam]⟩
  have h2 : (uid, u) ∈ (s.users.filter (fun p => p.2.teamId == some tid)).filter
      (fun p => p.2.isCoordinator) :=
    List.mem_filter.mpr ⟨h1, by simp [hcoord]⟩
  exact List.length_pos.mpr (List.ne_nil_of_mem h2)

/-- C4: for a coordinator U of team T, the coordinator-dashboard leave
handler refuses with the last-coordinator error and changes nothing
exactly when the number of users with `teamId == T` and
`isCoordinator == true` is one; otherwise it clears only U's own
team-affiliation fields (writing the empty-string team id and clearing
the flag) and leaves every other document untouched. -/
theorem leaveTeam_last_coordinator
    (s : Store) (uid tid : String) (u : UserDoc)
    (hu : getDoc s.users uid = some u)
    (hteam : u.teamId = some tid)
    (hcoord : u.isCoordinator = true) :
    (Dashboard004.countCoordinators s tid = 1 →
      Dashboard004.handleLeaveTeam s uid tid = .err .lastCoordinator s) ∧
    (Dashboard004.countCoordinators s tid ≠ 1 →
      ∃ s1, Dashboard004.handleLeaveTeam s uid tid = .ok s1 ∧
        getDoc s1.users uid =
          some { u with teamId := some "", isCoordinator := false } ∧
        (∀ j, j ≠ uid → getDoc s1.users j = getDoc s.users j) ∧
        s1.teams = s.teams ∧ s1.requests = s.requests ∧
        s1.gameRequests = s.gameRequests ∧ s1.games = s.games) := by
  constructor
  · intro hone
    unfold Dashboard004.handleLeaveTeam
    rw [if_pos (by rw [hone])]
  · intro hne
    have hge : 2 ≤ Dashboard004.countCoordinators s tid := by
      have h1 := countCoordinators_pos hu hteam hcoord
      omega
    unfold Dashboard004.handleLeaveTeam
    rw [if_neg (by omega)]
    rw [updateDoc_of_getDoc
      (fun v => { v with teamId := some "", isCoordinator := false }) hu]
    refine ⟨_, rfl, ?_, ?_, rfl, rfl, rfl, rfl⟩
    · exact getDoc_map_update
        (fun v => { v with teamId := some "", isCoordinator := false }) hu
    · intro j hj
      show getDoc (s.users.map (fun p => if p.1 == uid then
        (p.1, { p.2 with teamId := some "", isCoordinator := false }) else p)) j =
        getDoc s.users j
      exact getDoc_map_update_ne
        (fun v : UserDoc => { v with teamId := some "", isCoordinator := false })
        (fun h => hj h.symm)

section LeaveFixtures

/-- Sole coordinator of team `t1`. -/
def exCoord1 : UserDoc :=
  { name := "Cara", email := "c@x", teamId := some "t1", isCoordinator := true }

/-- A second coordinator of team `t1`. -/
def exCoord2 : UserDoc :=
  { name := "Dana", email := "d@x", teamId := some "t1", isCoordinator := true }

/-- Store whose team `t1` has exactly one coordinator. -/
def exStoreOneCoord : Store :=
  { users := [("u1", exCoord1)],
    teams := [("t1", { teamName := "Eagles", createdBy := "u1" })] }

/-- Store whose team `t1` has two coordinators. -/
def exStoreTwoCoord : Store :=
  { users := [("u1", exCoord1), ("u2", exCoord2)],
    teams := [("t1", { teamName := "Eagles", createdBy := "u1" })] }

end LeaveFixtures

/-- Witness for C4: with a single coordinator the leave call is refused
with the store unchanged; with two coordinators it succeeds and clears
only the leaver's fields. -/
theorem leaveTeam_last_coordinator_witness :
    Dashboard004.countCoordinators exStoreOneCoord "t1" = 1 ∧
    Dashboard004.handleLeaveTeam exStoreOneCoord "u1" "t1" =
      .err .lastCoordinator exStoreOneCoord ∧
    Dashboard004.countCoordinators exStoreTwoCoord "t1" = 2 ∧
    (∃ s1, Dashboard004.handleLeaveTeam exStoreTwoCoord "u1" "t1" = .ok s1 ∧
      getDoc s1.users "u1" =
        some { exCoord1 with teamId := some "", isCoordinator := false }) := by
  have h1 := leaveTeam_last_coordinator exStoreOneCoord "u1" "t1" exCoord1
    (by decide) (by decide) (by decide)
  have h2 := leaveTeam_last_coordinator exStoreTwoCoord "u1" "t1" exCoord1
    (by decide) (by decide) (by decide)
  obtain ⟨s1, hok, hget, -⟩ := h2.2 (by decide)
  exact ⟨by decide, h1.1 (by decide), by decide, ⟨s1, hok, hget⟩⟩

theorem getDoc_map_cond {α : Type} {l : Coll α} {k : String} {v : α}
    (c : String × α → Bool) (g : α → α)
    (h : getDoc l k = some v) (hc : c (k, v) = true) :
    getDoc (l.map (fun p => if c p then (p.1, g p.2) else p)) k = some (g v) := by
  induction l with
  | nil => simp [getDoc] at h
  | cons p t ih =>
    rw [getDoc_cons] at h
    by_cases hp : p.1 = k
    · simp only [hp, beq_self_eq_true, if_pos, Option.some.injEq] at h
      have hpv : p = (k, v) := by
        cases p
        simp only at hp h
        rw [hp, h]
      rw [hpv]
      simp [List.map_cons, hc, getDoc_cons]
    · have hpb : ¬(p.1 == k) = true := by simpa using hp
      simp only [hpb, Bool.false_eq_true, if_false] at h
      by_cases hcp : c p
      · simp [List.map_cons, hcp, getDoc_cons, hp, ih h]
      · simp [List.map_cons, hcp, getDoc_cons, hp, ih h]

theorem getDoc_deleteDoc_self {α : Type} (l : Coll α) (i : String) :
    getDoc (deleteDoc l i) i = none := by
  refine getDoc_of_not_mem_key (fun p hp => ?_)
  have := (List.mem_filter.mp hp).2
  simpa using this

/-- Amended C2: after `handleDeleteTeam(T)` no game and no coordinator
request references T, the team document is deleted, every user whose
`teamId` referenced T has `teamId` set to the empty string (the code
writes `''`, not `null`) with `isCoordinator = false`, and the
`gameRequests` collection is untouched. -/
theorem deleteTeam_cascade (s : Store) (tid : String) :
    (∀ p ∈ (Dashboard004.handleDeleteTeam s tid).games, p.2.teamId ≠ tid) ∧
    (∀ p ∈ (Dashboard004.handleDeleteTeam s tid).requests, p.2.teamId ≠ tid) ∧
    getDoc (Dashboard004.handleDeleteTeam s tid).teams tid = none ∧
    (∀ k v, getDoc s.users k = some v → v.teamId = some tid →
      getDoc (Dashboard004.handleDeleteTeam s tid).users k =
        some { v with teamId := some "", isCoordinator := false }) ∧
    (Dashboard004.handleDeleteTeam s tid).gameRequests = s.gameRequests := by
  refine ⟨?_, ?_, ?_, ?_, rfl⟩
  · intro p hp
    have := (List.mem_filter.mp hp).2
    simpa using this
  · intro p hp
    have := (List.mem_filter.mp hp).2
    simpa using this
  · exact getDoc_deleteDoc_self s.teams tid
  · intro k v hk hv
    have hmem : (k, v) ∈ s.users := getDoc_mem hk
    have hfil : (k, v) ∈ s.users.filter (fun p => p.2.teamId == some tid) :=
      List.mem_filter.mpr ⟨hmem, by simp [hv]⟩
    have hcon : ((s.users.filter (fun p => p.2.teamId == some tid)).map
        (fun p => p.1)).contains k = true := by
      exact List.elem_eq_true_of_mem (List.mem_map.mpr ⟨(k, v), hfil, rfl⟩)
    exact getDoc_map_cond _
      (fun u : UserDoc => { u with teamId := some "", isCoordinator := false })
      hk hcon

section DeleteFixtures

/-- Ordinary member of team `t1`. -/
def exMember3 : UserDoc :=
  { name := "Eve", email := "e@x", teamId := some "t1" }

/-- Another ordinary member of team `t1`. -/
def exMember4 : UserDoc :=
  { name := "Finn", email := "f@x", teamId := some "t1" }

/-- A third pending request for team `t1`. -/
def exReq3 : RequestDoc :=
  { userId := "u9", userEmail := "z@x", teamId := "t1", teamName := "Eagles",
    status := .pending }

/-- Store matching the specification example: team `t1` with two games,
three requests and four member users. -/
def exBigStore : Store :=
  { users := [("u1", exCoord1), ("u2", exCoord2), ("u3", exMember3), ("u4", exMember4)],
    teams := [("t1", { teamName := "Eagles", createdBy := "u1" })],
    requests := [("r1", exReq1), ("r2", exReq2), ("r3", exReq3)],
    games := [("g1", { teamId := "t1", title := "Game 1" }),
              ("g2", { teamId := "t1", title := "Game 2" })] }

end DeleteFixtures

/-- Witness for C2 (amended) at the specification's own example: after
deleting `t1` from a store with 2 games, 3 requests and 4 member users,
no games or requests remain, the team is gone, and member `u3` is
cleared to the empty-string team id. -/
theorem deleteTeam_cascade_witness :
    (Dashboard004.handleDeleteTeam exBigStore "t1").games = [] ∧
    (Dashboard004.handleDeleteTeam exBigStore "t1").requests = [] ∧
    getDoc exBigStore.users "u3" = some exMember3 ∧
    exMember3.teamId = some "t1" ∧
    getDoc (Dashboard004.handleDeleteTeam exBigStore "t1").users "u3" =
      some { exMember3 with teamId := some "", isCoordinator := false } := by
  have h := deleteTeam_cascade exBigStore "t1"
  exact ⟨by decide, by decide, by decide, by decide,
    h.2.2.2.1 "u3" exMember3 (by decide) (by decide)⟩

/-- Counterexample to C2 as stated: deleting `t1` leaves the referencing
user with `teamId` equal to the empty string, which is not `null`; the
claim's `teamId = null` postcondition fails on the code. -/
theorem deleteTeam_counterexample :
    (getDoc (Dashboard004.handleDeleteTeam exStoreOneCoord "t1").users "u1").map
      (fun v => v.teamId) = some (some "") ∧
    some "" ≠ (none : Option String) := by decide

theorem getDoc_unique {α : Type} {l : Coll α} {i : String} {a : α}
    (hnd : (l.map Prod.fst).Nodup) (h : getDoc l i = some a) :
    ∀ p ∈ l, p.1 = i → p.2 = a := by
  induction l with
  | nil => simp
  | cons p t ih =>
    rw [getDoc_cons] at h
    simp only [List.map_cons, List.nodup_cons] at hnd
    intro q hq hqi
    rcases List.mem_cons.mp hq with rfl | hqt
    · simp only [hqi, beq_self_eq_true, if_pos, Option.some.injEq] at h
      exact h
    · by_cases hp : p.1 = i
      · exfalso
        apply hnd.1
        rw [hp, ← hqi]
        exact List.mem_map.mpr ⟨q, hqt, rfl⟩
      · have hpb : ¬(p.1 == i) = true := by simpa using hp
        simp only [hpb, Bool.false_eq_true, if_false] at h
        exact ih hnd.2 h q hqt hqi

/-- Amended C5: the reject handlers perform no terminal-state check and
have no invalid-state error path: whenever the target document exists
they unconditionally (re-)apply the `rejected` status and report
success; in particular, with unique document ids, rejecting an
already-rejected GameRequest succeeds and leaves the store unchanged. -/
theorem reject_reapplies_terminal (s : Store) (rid : String) :
    (∀ gr, getDoc s.gameRequests rid = some gr →
      Dashboard004.handleRejectGameRequest s rid =
        { s with gameRequests := s.gameRequests.map (fun p => if p.1 == rid then
            (p.1, { p.2 with status := ReqStatus.rejected }) else p) }) ∧
    (∀ gr, getDoc s.gameRequests rid = some gr →
      gr.status = ReqStatus.rejected →
      (s.gameRequests.map Prod.fst).Nodup →
      Dashboard004.handleRejectGameRequest s rid = s) ∧
    (∀ r, getDoc s.requests rid = some r →
      CoordinatorDashboard.handleReject s rid =
        .ok { s with requests := s.requests.map (fun p => if p.1 == rid then
            (p.1, { p.2 with status := ReqStatus.rejected }) else p) }) := by
  have hmain : ∀ gr, getDoc s.gameRequests rid = some gr →
      Dashboard004.handleRejectGameRequest s rid =
        { s with gameRequests := s.gameRequests.map (fun p => if p.1 == rid then
            (p.1, { p.2 with status := ReqStatus.rejected }) else p) } := by
    intro gr hgr
    unfold Dashboard004.handleRejectGameRequest
    rw [updateDoc_of_getDoc (fun r => { r with status := ReqStatus.rejected }) hgr]
  refine ⟨hmain, ?_, ?_⟩
  · intro gr hgr hst hnd
    rw [hmain gr hgr]
    have hmap : s.gameRequests.map (fun p => if p.1 == rid then
        (p.1, { p.2 with status := ReqStatus.rejected }) else p) = s.gameRequests := by
      refine map_eq_self_on _ _ (fun p hp => ?_)
      by_cases hk : p.1 = rid
      · have hpv := getDoc_unique hnd hgr p hp hk
        have hfix : ({ p.2 with status := ReqStatus.rejected } : GameRequestDoc) = p.2 := by
          rw [hpv, ← hst]
        have hpe : p = (rid, p.2) := by
          cases p
          simp only at hk ⊢
          rw [hk]
        rw [hpe]
        simp [hfix]
      · simp [hk]
    rw [hmap]
  · intro r hr
    unfold CoordinatorDashboard.handleReject
    rw [updateDoc_of_getDoc (fun x => { x with status := ReqStatus.rejected }) hr]

section RejectFixtures

/-- An already-rejected game request. -/
def exGameReqRejected : GameRequestDoc :=
  { gameId := "g1", requestingTeamId := "t2", homeTeamId := "t1",
    status := .rejected }

/-- Store holding one rejected game request. -/
def exGRStore : Store :=
  { gameRequests := [("gr1", exGameReqRejected)] }

end RejectFixtures

/-- Witness for the amended C5: re-rejecting the already-rejected game
request `gr1` succeeds and is the identity on the store. -/
theorem reject_reapplies_terminal_witness :
    getDoc exGRStore.gameRequests "gr1" = some exGameReqRejected ∧
    exGameReqRejected.status = ReqStatus.rejected ∧
    Dashboard004.handleRejectGameRequest exGRStore "gr1" = exGRStore := by
  have h := reject_reapplies_terminal exGRStore "gr1"
  exact ⟨by decide, by decide,
    h.2.1 exGameReqRejected (by decide) (by decide) (by decide)⟩

/-- Counterexample to C5 as stated: rejecting the already-rejected
GameRequest `gr1` does not fail with an invalid-state error — the
handler silently re-applies the `rejected` status (here a no-op) and
reports success; no transition-out-of-terminal check exists in the
code. -/
theorem reject_terminal_counterexample :
    getDoc exGRStore.gameRequests "gr1" = some exGameReqRejected ∧
    exGameReqRejected.status = ReqStatus.rejected ∧
    Dashboard004.handleRejectGameRequest exGRStore "gr1" = exGRStore ∧
    getDoc (Dashboard004.handleRejectGameRequest exGRStore "gr1").gameRequests
      "gr1" = some exGameReqRejected := by decide

/-- Amended C6: with the caller's user document loaded, the
JoinTeamScreen variant of `requestToJoin` fails with the already-in-team
conflict when the stored `teamId` is truthy (non-null and non-empty —
the code's check is JavaScript truthiness, so an empty-string `teamId`
does not block), fails with the duplicate conflict when a pending
request for the same (user, team) pair exists, and otherwise appends a
new request with status `pending`; the FindATeam variant performs only
the truthiness check and creates the request even when a pending
duplicate exists. -/
theorem requestToJoin_conflicts
    (s : Store) (uid uemail tid tname fid : String) (u : UserDoc)
    (hu : getDoc s.users uid = some u) :
    (truthyStr u.teamId = true →
      JoinTeamScreen.handleSendRequest s uid uemail tid tname fid =
        .err .alreadyInTeam s ∧
      FindATeam.handleSendRequest s uid uemail tid tname fid =
        .err .alreadyInTeam s) ∧
    (truthyStr u.teamId = false →
      (∃ p ∈ s.requests, p.2.userId = uid ∧ p.2.teamId = tid ∧
        p.2.status = ReqStatus.pending) →
      JoinTeamScreen.handleSendRequest s uid uemail tid tname fid =
        .err .duplicateRequest s) ∧
    (truthyStr u.teamId = false →
      (∀ p ∈ s.requests, ¬(p.2.userId = uid ∧ p.2.teamId = tid ∧
        p.2.status = ReqStatus.pending)) →
      JoinTeamScreen.handleSendRequest s uid uemail tid tname fid =
        .ok { s with requests := s.requests ++
          [(fid, { userId := uid, userEmail := uemail, teamId := tid,
                   teamName := tname, status := ReqStatus.pending })] }) ∧
    (truthyStr u.teamId = false →
      FindATeam.handleSendRequest s uid uemail tid tname fid =
        .ok { s with requests := s.requests ++
          [(fid, { userId := uid, userEmail := uemail, teamId := tid,
                   teamName := tname, status := ReqStatus.pending })] }) := by
  refine ⟨?_, ?_, ?_, ?_⟩
  · intro ht
    constructor
    · unfold JoinTeamScreen.handleSendRequest
      rw [hu]
      dsimp only
      rw [if_pos ht]
    · unfold FindATeam.handleSendRequest
      rw [hu]
      dsimp only
      rw [if_pos ht]
  · intro ht hdup
    unfold JoinTeamScreen.handleSendRequest
    rw [hu]
    dsimp only
    rw [if_neg (by simp [ht])]
    rw [if_pos ?_]
    obtain ⟨p, hp, h1, h2, h3⟩ := hdup
    have hmem : p ∈ s.requests.filter (fun p =>
        p.2.userId == uid && p.2.teamId == tid
          && p.2.status == ReqStatus.pending) :=
      List.mem_filter.mpr ⟨hp, by simp [h1, h2, h3]⟩
    simp only [Bool.not_eq_true', Bool.not_eq_false]
    rw [List.isEmpty_eq_false_iff_exists_mem.mpr ⟨p, hmem⟩]
  · intro ht hnone
    unfold JoinTeamScreen.handleSendRequest
    rw [hu]
    dsimp only
    rw [if_neg (by simp [ht])]
    rw [if_neg ?_]
    have hnil : s.requests.filter (fun p =>
        p.2.userId == uid && p.2.teamId == tid
          && p.2.status == ReqStatus.pending) = [] := by
      refine List.filter_eq_nil_iff.mpr (fun p hp => ?_)
      have := hnone p hp
      intro hb
      apply this
      simp only [Bool.and_eq_true, beq_iff_eq] at hb
      exact ⟨hb.1.1, hb.1.2, hb.2⟩
    rw [hnil]
    simp
  · intro ht
    unfold FindATeam.handleSendRequest
    rw [hu]
    dsimp only
    rw [if_neg (by simp [ht])]

section JoinFixtures

/-- User whose `teamId` is the empty string, as left behind by the
delete-team and leave-team cascades. -/
def exUserEmptyTid : UserDoc :=
  { name := "Gus", email := "g@x", teamId := some "" }

/-- Store holding only that user and team `t1`. -/
def exStoreEmptyTid : Store :=
  { users := [("u1", exUserEmptyTid)],
    teams := [("t1", { teamName := "Eagles", createdBy := "u0" })] }

end JoinFixtures

/-- Witness for the amended C6: the empty-string `teamId` is falsy, so
the request is created; at the two-pending-request store the duplicate
check fires for (u1, t1); a truthy `teamId` is refused. -/
theorem requestToJoin_conflicts_witness :
    truthyStr exUserEmptyTid.teamId = false ∧
    JoinTeamScreen.handleSendRequest exStoreEmptyTid "u1" "g@x" "t1" "Eagles" "r9" =
      .ok { exStoreEmptyTid with requests :=
        [("r9", { userId := "u1", userEmail := "g@x", teamId := "t1",
                  teamName := "Eagles", status := ReqStatus.pending })] } ∧
    JoinTeamScreen.handleSendRequest exStore "u1" "a@x" "t1" "Eagles" "r9" =
      .err .duplicateRequest exStore ∧
    JoinTeamScreen.handleSendRequest exStoreTwoCoord "u1" "c@x" "t1" "Eagles" "r9" =
      .err .alreadyInTeam exStoreTwoCoord := by
  have h1 := requestToJoin_conflicts exStoreEmptyTid "u1" "g@x" "t1" "Eagles" "r9"
    exUserEmptyTid (by decide)
  have h2 := requestToJoin_conflicts exStore "u1" "a@x" "t1" "Eagles" "r9"
    exUser1 (by decide)
  have h3 := requestToJoin_conflicts exStoreTwoCoord "u1" "c@x" "t1" "Eagles" "r9"
    exCoord1 (by decide)
  refine ⟨by decide, ?_, ?_, ?_⟩
  · exact h1.2.2.1 (by decide) (by decide)
  · exact h2.2.1 (by decide) ⟨("r1", exReq1), by decide, by decide, by decide, by decide⟩
  · exact (h3.1 (by decide)).1

/-- Counterexample to C6 as stated: user `u1` has the non-null `teamId`
`some ""`, yet `requestToJoin` succeeds and creates a request document
instead of failing with a conflict. -/
theorem requestToJoin_counterexample :
    exUserEmptyTid.teamId = some "" ∧
    some "" ≠ (none : Option String) ∧
    JoinTeamScreen.handleSendRequest exStoreEmptyTid "u1" "g@x" "t1" "Eagles" "r9" =
      .ok { exStoreEmptyTid with requests :=
        [("r9", { userId := "u1", userEmail := "g@x", teamId := "t1",
                  teamName := "Eagles", status := ReqStatus.pending })] } := by decide

/-- Amended C7: only the legacy CreateTeamScreen variant enforces the
duplicate-name conflict.  With trim-normalised stored team names (as
every createTeam path stores them), a non-empty requested name and a
selected rink, an existing team whose name exactly equals the requested
name (case-sensitive) makes the legacy call fail with the duplicate
conflict and create nothing; the live variant performs no name check at
all: whenever its sign-in, validation and role checks pass it appends a
new team with the trimmed requested name even though a team with that
exact name already exists. -/
theorem createTeam_duplicate_conflict
    (s : Store) (si : Option String) (name r fid : String)
    (htrim : ∀ p ∈ s.teams, strTrim p.2.teamName = p.2.teamName)
    (hname : name ≠ "")
    (hdup : ∃ p ∈ s.teams, p.2.teamName = name) :
    (CreateTeamLegacy.handleCreateTeam s si name (some r) fid =
      .err .duplicateTeamName s ∧
    (CreateTeamLegacy.handleCreateTeam s si name (some r) fid).state.teams =
      s.teams) ∧
    (∀ uid place lt, strTrim name ≠ "" →
      (getDoc s.users uid = none ∨
        ∃ u, getDoc s.users uid = some u ∧ u.isCoordinator = false ∧
          truthyStr u.teamId = false) →
      ∃ s1, CreateTeamA.handleCreateTeam s (some uid) name (some place) lt fid =
          .ok s1 ∧
        s1.teams = s.teams ++ [(fid, { teamName := strTrim name, createdBy := uid })]) := by
  obtain ⟨p, hp, hpn⟩ := hdup
  have hntrim : strTrim name = name := by
    rw [← hpn]
    exact htrim p hp
  have hmain : CreateTeamLegacy.handleCreateTeam s si name (some r) fid =
      .err .duplicateTeamName s := by
    unfold CreateTeamLegacy.handleCreateTeam
    rw [if_neg (by simp [hname])]
    rw [if_pos ?_]
    unfold CreateTeamLegacy.checkTeamExists
    have hmem : p ∈ s.teams.filter (fun q => q.2.teamName == name) :=
      List.mem_filter.mpr ⟨hp, by simp [hpn]⟩
    have hmem2 : p ∈ s.teams.filter (fun q => q.2.teamName == strTrim name) := by
      rw [hntrim]
      exact hmem
    simp only [Bool.not_eq_true', Bool.not_eq_false]
    rw [List.isEmpty_eq_false_iff_exists_mem.mpr ⟨p, hmem2⟩]
  refine ⟨⟨hmain, by rw [hmain]; rfl⟩, ?_⟩
  intro uid place lt hnametrim hu
  unfold CreateTeamA.handleCreateTeam
  dsimp only
  rw [if_neg (by simp [hnametrim])]
  rcases hu with hnone | ⟨u, hu, hco, ht⟩
  · rw [hnone]
    exact ⟨_, rfl, rfl⟩
  · rw [hu]
    dsimp only
    rw [if_neg (by simp [hco]), if_neg (by simp [ht])]
    exact ⟨_, rfl, rfl⟩

/-- Witness for the amended C7: a team named Eagles exists, the legacy
call is refused with the store unchanged, and the live variant creates
a second Eagles team. -/
theorem createTeam_duplicate_conflict_witness :
    (∃ p ∈ exStore.teams, p.2.teamName = "Eagles") ∧
    CreateTeamLegacy.handleCreateTeam exStore (some "u9") "Eagles"
      (some "Rink 1") "t9" = .err .duplicateTeamName exStore ∧
    (∃ s1, CreateTeamA.handleCreateTeam exStore (some "u9") "Eagles"
        (some "addr") "" "t9" = .ok s1 ∧
      s1.teams = exStore.teams ++
        [("t9", { teamName := "Eagles", createdBy := "u9" })]) := by
  have h := createTeam_duplicate_conflict exStore (some "u9") "Eagles" "Rink 1" "t9"
    (by decide) (by decide)
    ⟨("t1", { teamName := "Eagles", createdBy := "u0" }), by decide, by decide⟩
  have htrimE : strTrim "Eagles" = "Eagles" := by decide
  obtain ⟨s1, hok, hteams⟩ := h.2 "u9" "addr" ""
    (by rw [htrimE]; decide) (Or.inl (by decide))
  rw [htrimE] at hteams
  exact ⟨⟨("t1", { teamName := "Eagles", createdBy := "u0" }), by decide, by decide⟩,
    h.1.1, ⟨s1, hok, hteams⟩⟩

/-- Counterexample to C7 as stated: the live CreateTeamScreen variant
(embedded as CreateTeamA, the handler the claim cites) performs no
duplicate-name check — with a team named Eagles already in the store,
creating Eagles again succeeds and a second team document named Eagles
appears instead of a duplicate-name conflict. -/
theorem createTeam_duplicate_counterexample :
    (∃ p ∈ exStore.teams, p.2.teamName = "Eagles") ∧
    CreateTeamA.handleCreateTeam exStore (some "u9") "Eagles" (some "addr")
        "" "t9" =
      .ok ((CreateTeamA.handleCreateTeam exStore (some "u9") "Eagles"
        (some "addr") "" "t9").state) ∧
    getDoc (CreateTeamA.handleCreateTeam exStore (some "u9") "Eagles"
        (some "addr") "" "t9").state.teams "t9" =
      some { teamName := "Eagles", createdBy := "u9" } ∧
    getDoc (CreateTeamA.handleCreateTeam exStore (some "u9") "Eagles"
        (some "addr") "" "t9").state.teams "t1" =
      some { teamName := "Eagles", createdBy := "u0" } := by decide

/-- C8: the nearby-games search returns exactly the games with
resolvable coordinates whose computed distance (kilometre distance
converted to miles by `KM_TO_MILES`) is within the radius, sorted
ascending by distance.  The kilometre distance function is a parameter
standing for the haversine (modelled separately over ℝ). -/
theorem searchNearbyGames_spec
    (d : ℚ → ℚ → ℚ → ℚ → ℚ) (o : ℚ × ℚ) (radius : ℚ)
    (games : List FindGames.GameEntry) :
    (∀ e ∈ FindGames.searchNearbyGames d o radius games,
      e.distanceMiles ≤ radius ∧
      e.distanceMiles = d o.1 o.2 e.lat e.lng * FindGames.KM_TO_MILES ∧
      ∃ g ∈ games, g.id = e.id ∧ g.lat = some e.lat ∧ g.lng = some e.lng) ∧
    (∀ g ∈ games, ∀ la ln, g.lat = some la → g.lng = some ln →
      d o.1 o.2 la ln * FindGames.KM_TO_MILES ≤ radius →
      ∃ e ∈ FindGames.searchNearbyGames d o radius games,
        e.id = g.id ∧ e.lat = la ∧ e.lng = ln ∧
        e.distanceMiles = d o.1 o.2 la ln * FindGames.KM_TO_MILES) ∧
    (FindGames.searchNearbyGames d o radius games).Sorted
      (fun a b => a.distanceMiles ≤ b.distanceMiles) := by
  have hperm := List.perm_insertionSort
    (fun a b : FindGames.EnrichedGame => a.distanceMiles ≤ b.distanceMiles)
    ((games.filterMap (FindGames.enrichGame d o)).filter
      (fun e => decide (e.distanceMiles ≤ radius)))
  refine ⟨?_, ?_, ?_⟩
  · intro e he
    have hef : e ∈ (games.filterMap (FindGames.enrichGame d o)).filter
        (fun e => decide (e.distanceMiles ≤ radius)) := hperm.mem_iff.mp he
    have hem := (List.mem_filter.mp hef).1
    have hrad : e.distanceMiles ≤ radius := by
      have := (List.mem_filter.mp hef).2
      simpa using this
    obtain ⟨g, hg, hge⟩ := List.mem_filterMap.mp hem
    refine ⟨hrad, ?_, ⟨g, hg, ?_⟩⟩
    · unfold FindGames.enrichGame at hge
      cases hla : g.lat with
      | none => rw [hla] at hge; cases hge
      | some la =>
        cases hln : g.lng with
        | none => rw [hla, hln] at hge; cases hge
        | some ln =>
          rw [hla, hln] at hge
          simp only [Option.some.injEq] at hge
          rw [← hge]
    · unfold FindGames.enrichGame at hge
      cases hla : g.lat with
      | none => rw [hla] at hge; cases hge
      | some la =>
        cases hln : g.lng with
        | none => rw [hla, hln] at hge; cases hge
        | some ln =>
          rw [hla, hln] at hge
          simp only [Option.some.injEq] at hge
          rw [← hge]
          exact ⟨rfl, rfl, rfl⟩
  · intro g hg la ln hla hln hrad
    have henr : FindGames.enrichGame d o g =
        some ⟨g.id, la, ln, d o.1 o.2 la ln * FindGames.KM_TO_MILES⟩ := by
      unfold FindGames.enrichGame
      rw [hla, hln]
    have hmem : (⟨g.id, la, ln, d o.1 o.2 la ln * FindGames.KM_TO_MILES⟩ :
          FindGames.EnrichedGame) ∈ games.filterMap (FindGames.enrichGame d o) :=
      List.mem_filterMap.mpr ⟨g, hg, henr⟩
    have hfil : (⟨g.id, la, ln, d o.1 o.2 la ln * FindGames.KM_TO_MILES⟩ :
          FindGames.EnrichedGame) ∈
        (games.filterMap (FindGames.enrichGame d o)).filter
          (fun e => decide (e.distanceMiles ≤ radius)) :=
      List.mem_filter.mpr ⟨hmem, by simpa using hrad⟩
    exact ⟨_, hperm.mem_iff.mpr hfil, rfl, rfl, rfl, rfl⟩
  · haveI : IsTotal FindGames.EnrichedGame
        (fun a b => a.distanceMiles ≤ b.distanceMiles) :=
      ⟨fun a b => le_total _ _⟩
    haveI : IsTrans FindGames.EnrichedGame
        (fun a b => a.distanceMiles ≤ b.distanceMiles) :=
      ⟨fun _ _ _ => le_trans⟩
    exact List.sorted_insertionSort _ _

section SearchFixtures

/-- Distance oracle for the three-game fixture: games at latitudes 1, 2
and 3 lie at 2, 8 and 15 miles from any origin (given in kilometres, so
that the mile conversion lands exactly). -/
def exDist : ℚ → ℚ → ℚ → ℚ → ℚ := fun _ _ la _ =>
  (if la = 1 then 2 else if la = 2 then 8 else 15) / FindGames.KM_TO_MILES

/-- The three-game fixture, deliberately out of distance order. -/
def exGames : List FindGames.GameEntry :=
  [{ id := "g8", lat := some 2, lng := some 0 },
   { id := "g15", lat := some 3, lng := some 0 },
   { id := "g2", lat := some 1, lng := some 0 }]

end SearchFixtures

/-- Witness for C8, the specification's fixture: three games at 2, 8 and
15 miles with a 10-mile radius yield exactly the 2-mile and 8-mile
games, nearest first. -/
theorem searchNearbyGames_spec_witness :
    FindGames.searchNearbyGames exDist (0, 0) 10 exGames =
      [{ id := "g2", lat := 1, lng := 0, distanceMiles := 2 },
       { id := "g8", lat := 2, lng := 0, distanceMiles := 8 }] ∧
    (∃ e ∈ FindGames.searchNearbyGames exDist (0, 0) 10 exGames,
      e.id = "g2" ∧ e.lat = 1 ∧ e.lng = 0 ∧
      e.distanceMiles = exDist 0 0 1 0 * FindGames.KM_TO_MILES) ∧
    (FindGames.searchNearbyGames exDist (0, 0) 10 exGames).Sorted
      (fun a b => a.distanceMiles ≤ b.distanceMiles) := by
  have h := searchNearbyGames_spec exDist (0, 0) 10 exGames
  refine ⟨?_, ?_, h.2.2⟩
  · show (((exGames.filterMap (FindGames.enrichGame exDist (0, 0))).filter
      (fun e => decide (e.distanceMiles ≤ 10))).insertionSort
      (fun a b => a.distanceMiles ≤ b.distanceMiles)) = _
    norm_num [FindGames.enrichGame, exGames, exDist, FindGames.KM_TO_MILES,
      List.insertionSort, List.orderedInsert, List.filterMap_cons,
      List.filterMap_nil, List.filter_cons, List.filter_nil]
  · exact h.2.1 { id := "g2", lat := some 1, lng := some 0 } (by decide)
      1 0 (by decide) (by decide)
      (by norm_num [exDist, FindGames.KM_TO_MILES])

namespace HaversineBounds

open Real

/-- Key identity: the atan2 formulation of the haversine central angle
agrees with the arcsine formulation for every real `a` (the degenerate
regions `a ≤ 0` and `a ≥ 1` also agree under Mathlib's total `sqrt`,
`arcsin` and the modelled `Math.atan2`). -/
theorem atan2_sqrt_eq_arcsin (a : ℝ) :
    Locations.atan2 (Real.sqrt a) (Real.sqrt (1 - a)) =
      Real.arcsin (Real.sqrt a) := by
  rcases le_or_lt a 0 with ha | ha
  · have hs : Real.sqrt a = 0 := Real.sqrt_eq_zero'.mpr ha
    have ht : 0 < Real.sqrt (1 - a) := Real.sqrt_pos.mpr (by linarith)
    rw [hs]
    unfold Locations.atan2
    rw [if_pos ht, zero_div, Real.arctan_zero, Real.arcsin_zero]
  · rcases lt_or_le a 1 with h1 | h1
    · have hs : 0 < Real.sqrt a := Real.sqrt_pos.mpr ha
      have ht : 0 < Real.sqrt (1 - a) := Real.sqrt_pos.mpr (by linarith)
      have hlt1 : Real.sqrt a < 1 := by
        have := Real.sqrt_lt_sqrt ha.le h1
        rwa [Real.sqrt_one] at this
      unfold Locations.atan2
      rw [if_pos ht]
      rw [Real.arcsin_eq_arctan ⟨by linarith [Real.sqrt_nonneg a], hlt1⟩]
      rw [Real.sq_sqrt ha.le]
    · have ht : Real.sqrt (1 - a) = 0 :=
        Real.sqrt_eq_zero'.mpr (by linarith)
      have hs1 : 1 ≤ Real.sqrt a := by
        have := Real.sqrt_le_sqrt h1
        rwa [Real.sqrt_one] at this
      have hs : 0 < Real.sqrt a := by linarith
      unfold Locations.atan2
      rw [ht]
      rw [if_neg (lt_irrefl 0), if_neg (by simp), if_neg (by simp),
        if_pos ⟨rfl, hs⟩, Real.arcsin_of_one_le hs1]

/-- The code's haversine equals the specification's arcsine formulation
for all inputs. -/
theorem haversine_eq_spec (lat1 lon1 lat2 lon2 : ℝ) :
    Locations.haversineDistanceKm lat1 lon1 lat2 lon2 =
      Locations.specHaversineKm lat1 lon1 lat2 lon2 := by
  unfold Locations.haversineDistanceKm Locations.specHaversineKm
  dsimp only
  rw [show Real.sin (Locations.toRad (lat2 - lat1) / 2) *
        Real.sin (Locations.toRad (lat2 - lat1) / 2) +
      Real.cos (Locations.toRad lat1) * Real.cos (Locations.toRad lat2) *
        (Real.sin (Locations.toRad (lon2 - lon1) / 2) *
          Real.sin (Locations.toRad (lon2 - lon1) / 2)) =
      Real.sin (Locations.toRad (lat2 - lat1) / 2) ^ 2 +
      Real.cos (Locations.toRad lat1) * Real.cos (Locations.toRad lat2) *
        Real.sin (Locations.toRad (lon2 - lon1) / 2) ^ 2 from by ring]
  rw [atan2_sqrt_eq_arcsin]
  ring

theorem cos_double_sin (x : ℝ) : Real.cos (2 * x) = 1 - 2 * Real.sin x ^ 2 := by
  rw [Real.cos_two_mul, Real.cos_sq']
  ring

/-- Taylor-style two-sided bound for `sin` on a rational interval inside
the unit interval. -/
theorem sin_between {x l u : ℝ} (hl0 : 0 ≤ l) (hlx : l ≤ x) (hxu : x ≤ u)
    (hu1 : u ≤ 1) :
    l - l ^ 3 / 6 - l ^ 4 * (5 / 96) ≤ Real.sin x ∧
      Real.sin x ≤ u - u ^ 3 / 6 + u ^ 4 * (5 / 96) := by
  have hpi := Real.pi_gt_d6
  have hu2 : u ≤ Real.pi / 2 := by linarith
  have hml : l ∈ Set.Icc (-(Real.pi / 2)) (Real.pi / 2) :=
    ⟨by linarith, by linarith⟩
  have hmx : x ∈ Set.Icc (-(Real.pi / 2)) (Real.pi / 2) :=
    ⟨by linarith, by linarith⟩
  have hmu : u ∈ Set.Icc (-(Real.pi / 2)) (Real.pi / 2) :=
    ⟨by linarith, by linarith⟩
  have h1 : Real.sin l ≤ Real.sin x :=
    Real.strictMonoOn_sin.monotoneOn hml hmx hlx
  have h2 : Real.sin x ≤ Real.sin u :=
    Real.strictMonoOn_sin.monotoneOn hmx hmu hxu
  have hbl := Real.sin_bound (x := l) (by rw [abs_of_nonneg hl0]; linarith)
  have hbu := Real.sin_bound (x := u)
    (by rw [abs_of_nonneg (by linarith : (0:ℝ) ≤ u)]; exact hu1)
  rw [abs_sub_le_iff] at hbl hbu
  rw [abs_of_nonneg hl0] at hbl
  rw [abs_of_nonneg (by linarith : (0:ℝ) ≤ u)] at hbu
  constructor
  · nlinarith [hbl.1, hbl.2]
  · nlinarith [hbu.1, hbu.2]

/-- Bounds for `sin (c * pi)` from a rational coefficient `c`, via the
rational bounds on pi. -/
theorem sin_angle_bounds (c sL sU : ℝ) (hc : 0 < c)
    (hcu : c * 3.141593 ≤ 1)
    (hL : sL ≤ c * 3.141592 - (c * 3.141592) ^ 3 / 6
      - (c * 3.141592) ^ 4 * (5 / 96))
    (hU : c * 3.141593 - (c * 3.141593) ^ 3 / 6
      + (c * 3.141593) ^ 4 * (5 / 96) ≤ sU) :
    sL ≤ Real.sin (c * Real.pi) ∧ Real.sin (c * Real.pi) ≤ sU := by
  have hpl := Real.pi_gt_d6
  have hph := Real.pi_lt_d6
  have h1 : c * 3.141592 ≤ c * Real.pi := by nlinarith
  have h2 : c * Real.pi ≤ c * 3.141593 := by nlinarith
  have hb := sin_between (l := c * 3.141592) (u := c * 3.141593)
    (by positivity) h1 h2 hcu
  exact ⟨le_trans hL hb.1, le_trans hb.2 hU⟩

end HaversineBounds

namespace HaversineBounds

set_option maxHeartbeats 3000000 in
/-- Numeric evaluation: the specification's haversine between London
(51.5074, -0.1278) and Paris (48.8566, 2.3522) lies within
[343.49, 343.62] km, via rational interval bounds on pi, sin and
arcsin. -/
theorem specHaversine_london_paris :
    342.5 ≤ Locations.specHaversineKm 51.5074 (-0.1278) 48.8566 2.3522 ∧
      Locations.specHaversineKm 51.5074 (-0.1278) 48.8566 2.3522 ≤ 344.5 := by
  unfold Locations.specHaversineKm Locations.toRad
  have hpl := Real.pi_gt_d6
  have hph := Real.pi_lt_d6
  set A := Real.sin ((48.8566 - 51.5074) * Real.pi / 180 / 2) ^ 2 +
    Real.cos (51.5074 * Real.pi / 180) * Real.cos (48.8566 * Real.pi / 180) *
      Real.sin ((2.3522 - -0.1278) * Real.pi / 180 / 2) ^ 2 with hAdef
  -- latitude-difference half angle
  have e1 : (48.8566 - 51.5074 : ℝ) * Real.pi / 180 / 2 =
      -((2.6508 / 360) * Real.pi) := by
    have h0 : (48.8566 - 51.5074 : ℝ) = -2.6508 := by norm_num
    rw [h0]; ring
  have hs1 := sin_angle_bounds (2.6508 / 360) 0.02313051 0.02313055
    (by norm_num) (by norm_num) (by norm_num) (by norm_num)
  have hsq1lo : (0.00053502049 : ℝ) ≤
      Real.sin ((48.8566 - 51.5074) * Real.pi / 180 / 2) ^ 2 := by
    rw [e1, Real.sin_neg, neg_sq]
    nlinarith [hs1.1, hs1.2]
  have hsq1hi : Real.sin ((48.8566 - 51.5074) * Real.pi / 180 / 2) ^ 2 ≤
      0.00053502235 := by
    rw [e1, Real.sin_neg, neg_sq]
    nlinarith [hs1.1, hs1.2]
  -- longitude-difference half angle
  have e2 : (2.3522 - -0.1278 : ℝ) * Real.pi / 180 / 2 =
      (2.48 / 360) * Real.pi := by
    have h0 : (2.3522 - -0.1278 : ℝ) = 2.48 := by norm_num
    rw [h0]; ring
  have hs2 := sin_angle_bounds (2.48 / 360) 0.02164037 0.02164041
    (by norm_num) (by norm_num) (by norm_num) (by norm_num)
  have hsq2lo : (0.00046830561 : ℝ) ≤
      Real.sin ((2.3522 - -0.1278) * Real.pi / 180 / 2) ^ 2 := by
    rw [e2]
    nlinarith [hs2.1, hs2.2]
  have hsq2hi : Real.sin ((2.3522 - -0.1278) * Real.pi / 180 / 2) ^ 2 ≤
      0.00046830735 := by
    rw [e2]
    nlinarith [hs2.1, hs2.2]
  -- cosine of the London latitude via two angle halvings
  have e3 : (51.5074 : ℝ) * Real.pi / 180 =
      2 * (2 * ((51.5074 / 720) * Real.pi)) := by ring
  have ht1 := sin_angle_bounds (51.5074 / 720) 0.22271855 0.22298438
    (by norm_num) (by norm_num) (by norm_num) (by norm_num)
  have hc1 : (0.62200196 : ℝ) ≤ Real.cos (51.5074 * Real.pi / 180) ∧
      Real.cos (51.5074 * Real.pi / 180) ≤ 0.6228557 := by
    rw [e3, Real.cos_two_mul, cos_double_sin]
    have ha : (0.90055593 : ℝ) ≤
        1 - 2 * Real.sin ((51.5074 / 720) * Real.pi) ^ 2 := by
      nlinarith [ht1.1, ht1.2]
    have hb : 1 - 2 * Real.sin ((51.5074 / 720) * Real.pi) ^ 2 ≤ 0.9007929 := by
      nlinarith [ht1.1, ht1.2]
    constructor
    · nlinarith [ha, hb]
    · nlinarith [ha, hb]
  -- cosine of the Paris latitude
  have e4 : (48.8566 : ℝ) * Real.pi / 180 =
      2 * (2 * ((48.8566 / 720) * Real.pi)) := by ring
  have ht2 := sin_angle_bounds (48.8566 / 720) 0.2114549 0.2116701
    (by norm_num) (by norm_num) (by norm_num) (by norm_num)
  have hc2 : (0.65762547 : ℝ) ≤ Real.cos (48.8566 * Real.pi / 180) ∧
      Real.cos (48.8566 * Real.pi / 180) ≤ 0.65828879 := by
    rw [e4, Real.cos_two_mul, cos_double_sin]
    have ha : (0.91039153 : ℝ) ≤
        1 - 2 * Real.sin ((48.8566 / 720) * Real.pi) ^ 2 := by
      nlinarith [ht2.1, ht2.2]
    have hb : 1 - 2 * Real.sin ((48.8566 / 720) * Real.pi) ^ 2 ≤ 0.91057366 := by
      nlinarith [ht2.1, ht2.2]
    constructor
    · nlinarith [ha, hb]
    · nlinarith [ha, hb]
  -- products
  have hcc : (0.40904433 : ℝ) ≤
      Real.cos (51.5074 * Real.pi / 180) * Real.cos (48.8566 * Real.pi / 180) ∧
      Real.cos (51.5074 * Real.pi / 180) * Real.cos (48.8566 * Real.pi / 180) ≤
        0.41001893 := by
    constructor
    · nlinarith [hc1.1, hc2.1]
    · nlinarith [hc1.1, hc1.2, hc2.1, hc2.2]
  have hccs : (0.000191557754 : ℝ) ≤
      Real.cos (51.5074 * Real.pi / 180) * Real.cos (48.8566 * Real.pi / 180) *
        Real.sin ((2.3522 - -0.1278) * Real.pi / 180 / 2) ^ 2 ∧
      Real.cos (51.5074 * Real.pi / 180) * Real.cos (48.8566 * Real.pi / 180) *
        Real.sin ((2.3522 - -0.1278) * Real.pi / 180 / 2) ^ 2 ≤
        0.000192014879 := by
    constructor
    · nlinarith [hcc.1, hsq2lo]
    · nlinarith [hcc.1, hcc.2, hsq2lo, hsq2hi]
  -- assemble A
  have hAlo : (0.000726578244 : ℝ) ≤ A := by
    rw [hAdef]; linarith [hsq1lo, hccs.1]
  have hAhi : A ≤ 0.000727037229 := by
    rw [hAdef]; linarith [hsq1hi, hccs.2]
  have hA0 : (0 : ℝ) ≤ A :=
    le_trans (by norm_num : (0 : ℝ) ≤ 0.000726578244) hAlo
  -- square root
  have hsqlo : (0.02695511 : ℝ) ≤ Real.sqrt A := by
    rw [Real.le_sqrt (by norm_num) hA0]
    nlinarith [hAlo]
  have hsqhi : Real.sqrt A ≤ 0.02696363 := by
    have h1 : Real.sqrt A ≤ Real.sqrt ((0.02696363 : ℝ) ^ 2) :=
      Real.sqrt_le_sqrt (by nlinarith [hAhi])
    rwa [Real.sqrt_sq (by norm_num)] at h1
  -- arcsine
  have harclo : (0.02695781 : ℝ) ≤ Real.arcsin (Real.sqrt A) := by
    have hsin := (sin_between (l := (0.02695781 : ℝ)) (u := (0.02695781 : ℝ))
      (by norm_num) le_rfl le_rfl (by norm_num)).2
    have hle : Real.sin 0.02695781 ≤ Real.sqrt A := by
      have h2 : (0.02695781 : ℝ) - 0.02695781 ^ 3 / 6 +
          0.02695781 ^ 4 * (5 / 96) ≤ 0.02695511 := by norm_num
      linarith [hsin, hsqlo]
    have he : Real.arcsin (Real.sin 0.02695781) = (0.02695781 : ℝ) :=
      Real.arcsin_sin (by linarith) (by linarith)
    calc (0.02695781 : ℝ) = Real.arcsin (Real.sin 0.02695781) := he.symm
      _ ≤ Real.arcsin (Real.sqrt A) := Real.monotone_arcsin hle
  have harchi : Real.arcsin (Real.sqrt A) ≤ 0.02696693 := by
    have hsin := (sin_between (l := (0.02696693 : ℝ)) (u := (0.02696693 : ℝ))
      (by norm_num) le_rfl le_rfl (by norm_num)).1
    have hle : Real.sqrt A ≤ Real.sin 0.02696693 := by
      have h2 : (0.02696363 : ℝ) ≤ 0.02696693 - 0.02696693 ^ 3 / 6 -
          0.02696693 ^ 4 * (5 / 96) := by norm_num
      linarith [hsin, hsqhi]
    have he : Real.arcsin (Real.sin 0.02696693) = (0.02696693 : ℝ) :=
      Real.arcsin_sin (by linarith) (by linarith)
    calc Real.arcsin (Real.sqrt A) ≤ Real.arcsin (Real.sin 0.02696693) :=
        Real.monotone_arcsin hle
      _ = (0.02696693 : ℝ) := he
  constructor
  · nlinarith [harclo, harchi]
  · nlinarith [harclo, harchi]

end HaversineBounds

/-- C9: the discovery distance function is the haversine with Earth
radius 6371 km and equals the specification's arcsine formulation at
every input; on London-Paris it is within 1 km of 343.5 km; and the
displayed miles value is the kilometre value times exactly 0.621371
(`KM_TO_MILES = 621371/1000000`), as applied to every search result. -/
theorem haversineDistanceKm_correct :
    (∀ lat1 lon1 lat2 lon2 : ℝ,
      Locations.haversineDistanceKm lat1 lon1 lat2 lon2 =
        Locations.specHaversineKm lat1 lon1 lat2 lon2) ∧
    |Locations.haversineDistanceKm 51.5074 (-0.1278) 48.8566 2.3522 - 343.5| ≤ 1 ∧
    FindGames.KM_TO_MILES = 621371 / 1000000 ∧
    (∀ d o r games, ∀ e ∈ FindGames.searchNearbyGames d o r games,
      e.distanceMiles = d o.1 o.2 e.lat e.lng * FindGames.KM_TO_MILES) := by
  refine ⟨HaversineBounds.haversine_eq_spec, ?_, by norm_num [FindGames.KM_TO_MILES], ?_⟩
  · rw [HaversineBounds.haversine_eq_spec]
    have h := HaversineBounds.specHaversine_london_paris
    rw [abs_le]
    constructor
    · linarith [h.1]
    · linarith [h.2]
  · intro d o r games e he
    have hperm := List.perm_insertionSort
      (fun a b : FindGames.EnrichedGame => a.distanceMiles ≤ b.distanceMiles)
      ((games.filterMap (FindGames.enrichGame d o)).filter
        (fun x => decide (x.distanceMiles ≤ r)))
    have hef := hperm.mem_iff.mp he
    obtain ⟨g, _, hge⟩ := List.mem_filterMap.mp (List.mem_filter.mp hef).1
    unfold FindGames.enrichGame at hge
    cases hla : g.lat with
    | none => rw [hla] at hge; cases hge
    | some la =>
      cases hln : g.lng with
      | none => rw [hla, hln] at hge; cases hge
      | some ln =>
        rw [hla, hln] at hge
        simp only [Option.some.injEq] at hge
        rw [← hge]

/-- Witness for C9: the formula identity at the origin, and the exact
miles factor on a concrete search hit of the three-game fixture. -/
theorem haversineDistanceKm_correct_witness :
    Locations.haversineDistanceKm 0 0 0 0 = Locations.specHaversineKm 0 0 0 0 ∧
    (∃ e ∈ FindGames.searchNearbyGames exDist (0, 0) 10 exGames,
      e.distanceMiles = exDist 0 0 e.lat e.lng * FindGames.KM_TO_MILES) := by
  have h := haversineDistanceKm_correct
  have hlist : FindGames.searchNearbyGames exDist (0, 0) 10 exGames =
      [{ id := "g2", lat := 1, lng := 0, distanceMiles := 2 },
       { id := "g8", lat := 2, lng := 0, distanceMiles := 8 }] := by
    show (((exGames.filterMap (FindGames.enrichGame exDist (0, 0))).filter
      (fun e => decide (e.distanceMiles ≤ 10))).insertionSort
      (fun a b => a.distanceMiles ≤ b.distanceMiles)) = _
    norm_num [FindGames.enrichGame, exGames, exDist, FindGames.KM_TO_MILES,
      List.insertionSort, List.orderedInsert, List.filterMap_cons,
      List.filterMap_nil, List.filter_cons, List.filter_nil]
  have hmem : ({ id := "g2", lat := 1, lng := 0, distanceMiles := 2 } :
      FindGames.EnrichedGame) ∈
      FindGames.searchNearbyGames exDist (0, 0) 10 exGames := by
    rw [hlist]
    simp
  exact ⟨h.1 0 0 0 0,
    ⟨_, hmem, h.2.2.2 exDist (0, 0) 10 exGames _ hmem⟩⟩
